import Mathlib

set_option linter.unusedVariables false

/-!
Verification of the contentful-migration tool (migrate.py and 02_migrate.py).

The development shallowly embeds the JSON-valued data the tool manipulates
(field values, rich-text documents, asset payloads), the `MigrationState`
dataclass, the pure transformation functions (`transform_field_value`,
`transform_entry_fields`, `transform_field`), the embargoed-asset signer,
the state-mutating bodies of the three migration stage loops (with network
calls abstracted as oracles for the created/published results), and the
state save/load serialization.  Python dicts are modelled as association
lists in insertion order (Python 3.7+ dict semantics); Python values that
can flow through the JSON-shaped data are modelled by the `Json` type;
Python runtime errors reachable in the modelled code paths (AttributeError
from calling `.get` on a non-dict, TypeError from an unhashable dict key)
are modelled with `Except PyErr`.
-/

/-- JSON-like values as produced by `json.loads` / consumed by the tool:
null, booleans, numbers, strings, lists, and string-keyed dicts in
insertion order. -/
inductive Json where
  | null
  | bool (b : Bool)
  | num (n : Int)
  | str (s : String)
  | arr (xs : List Json)
  | obj (kvs : List (String × Json))
deriving Repr

mutual

/-- Boolean structural equality on `Json` (used to build `DecidableEq`). -/
def jsonBEq : Json → Json → Bool
  | .null, .null => true
  | .bool a, .bool b => a = b
  | .num a, .num b => a = b
  | .str a, .str b => a = b
  | .arr a, .arr b => jsonBEqList a b
  | .obj a, .obj b => jsonBEqObj a b
  | _, _ => false
termination_by structural a => a

def jsonBEqList : List Json → List Json → Bool
  | [], [] => true
  | a :: as, b :: bs => jsonBEq a b && jsonBEqList as bs
  | _, _ => false
termination_by structural a => a

def jsonBEqObj : List (String × Json) → List (String × Json) → Bool
  | [], [] => true
  | (ka, va) :: as, (kb, vb) :: bs => ka = kb && jsonBEq va vb && jsonBEqObj as bs
  | _, _ => false
termination_by structural a => a

end

/-- Member-wise induction principle for `Json` (recursion into list and
object children via membership). -/
def Json.memRec {motive : Json → Prop}
    (hnull : motive .null) (hbool : ∀ b, motive (.bool b))
    (hnum : ∀ n, motive (.num n)) (hstr : ∀ s, motive (.str s))
    (harr : ∀ xs, (∀ x ∈ xs, motive x) → motive (.arr xs))
    (hobj : ∀ kvs, (∀ p ∈ kvs, motive p.2) → motive (.obj kvs)) :
    ∀ v, motive v
  | .null => hnull
  | .bool b => hbool b
  | .num n => hnum n
  | .str s => hstr s
  | .arr xs => harr xs (fun x hx =>
      Json.memRec hnull hbool hnum hstr harr hobj x)
  | .obj kvs => hobj kvs (fun p hp =>
      Json.memRec hnull hbool hnum hstr harr hobj p.2)
termination_by v => sizeOf v
decreasing_by
  · have := List.sizeOf_lt_of_mem hx
    simp only [Json.arr.sizeOf_spec]
    omega
  · have h1 := List.sizeOf_lt_of_mem hp
    have h2 : sizeOf p.2 < sizeOf p := by
      obtain ⟨k, v2⟩ := p
      simp only [Prod.mk.sizeOf_spec]
      omega
    simp only [Json.obj.sizeOf_spec]
    omega

theorem jsonBEq_iff : ∀ a b : Json, jsonBEq a b = true ↔ a = b := by
  intro a
  induction a using Json.memRec with
  | hnull => intro b; cases b <;> simp [jsonBEq]
  | hbool x => intro b; cases b <;> simp [jsonBEq]
  | hnum x => intro b; cases b <;> simp [jsonBEq]
  | hstr x => intro b; cases b <;> simp [jsonBEq]
  | harr xs ih =>
    intro b
    cases b <;> simp [jsonBEq]
    case arr ys =>
      induction xs generalizing ys with
      | nil => cases ys <;> simp [jsonBEqList]
      | cons x xs ihx =>
        cases ys with
        | nil => simp [jsonBEqList]
        | cons y ys =>
          simp [jsonBEqList, ih x (by simp), ihx (fun z hz => ih z (by simp [hz])) ys]
  | hobj kvs ih =>
    intro b
    cases b <;> simp [jsonBEq]
    case obj ls =>
      induction kvs generalizing ls with
      | nil => cases ls <;> simp [jsonBEqObj]
      | cons p ps ihp =>
        cases ls with
        | nil => simp [jsonBEqObj]
        | cons q qs =>
          obtain ⟨k, v⟩ := p
          obtain ⟨k2, v2⟩ := q
          simp [jsonBEqObj, ih ⟨k, v⟩ (by simp), ihp (fun z hz => ih z (by simp [hz])) qs]
          try tauto

instance : DecidableEq Json := fun a b =>
  decidable_of_iff (jsonBEq a b = true) (jsonBEq_iff a b)

/-- Python `d.get(k)` on a string-keyed dict: the (unique) binding of `k`,
or `None` rendered as `Option.none` when absent. -/
def jGet (kvs : List (String × Json)) (k : String) : Option Json :=
  (kvs.find? (fun p => p.1 = k)).map (fun p => p.2)

/-- Python `d.get(k, default)`. -/
def jGetD (kvs : List (String × Json)) (k : String) (d : Json) : Json :=
  (jGet kvs k).getD d

/-- Python truthiness of a JSON-shaped value: `None`, `False`, `0`, `""`,
`[]` and `{}` are falsy, everything else truthy. -/
def pyFalsy : Json → Bool
  | .null => true
  | .bool b => !b
  | .num n => n = 0
  | .str s => s = ""
  | .arr xs => xs.isEmpty
  | .obj kvs => kvs.isEmpty

/-- Python truthiness (negation of `pyFalsy`). -/
def pyTruthy (v : Json) : Bool := !(pyFalsy v)

/-- Lookup in a string-to-string dict (`m.get(k)` returning `None` when
absent). -/
def strDictFind (m : List (String × String)) (k : String) : Option String :=
  (m.find? (fun p => p.1 = k)).map (fun p => p.2)

/-- Python `m.get(k, d)` on a string-to-string dict. -/
def strDictGetD (m : List (String × String)) (k d : String) : String :=
  (strDictFind m k).getD d

/-- Python `m[k] = v` on a dict: replaces the binding in place when the key
exists (insertion order is kept) and appends a new binding otherwise. -/
def dictSet (m : List (String × String)) (k v : String) : List (String × String) :=
  if m.any (fun p => p.1 = k) then
    m.map (fun p => if p.1 = k then (k, v) else p)
  else m ++ [(k, v)]

/-- Python runtime errors reachable in the modelled code paths. -/
inductive PyErr where
  | attributeError
  | typeError
deriving DecidableEq, Repr

instance {e a : Type} [DecidableEq e] [DecidableEq a] : DecidableEq (Except e a) := fun x y =>
  match x, y with
  | .ok x1, .ok y1 => if h : x1 = y1 then isTrue (by rw [h]) else isFalse (by simp [h])
  | .error x1, .error y1 => if h : x1 = y1 then isTrue (by rw [h]) else isFalse (by simp [h])
  | .ok _, .error _ => isFalse (by simp)
  | .error _, .ok _ => isFalse (by simp)

/-- Per-stage counters: `{"total": .., "migrated": .., "skipped": ..,
"failed": ..}`.  The Python dataclass types `stats` as a string-keyed dict,
but it always carries exactly these four keys per stage, so it is modelled
as a fixed record. -/
structure StageStats where
  total : Nat := 0
  migrated : Nat := 0
  skipped : Nat := 0
  failed : Nat := 0
deriving DecidableEq, Repr

/-- The three per-stage counter groups of `MigrationState.stats`. -/
structure MigStats where
  content_types : StageStats := {}
  assets : StageStats := {}
  entries : StageStats := {}
deriving DecidableEq, Repr

/-- The `MigrationState` dataclass of migrate.py (fields in declaration
order, with the dataclass defaults). -/
structure MigrationState where
  o2_space_id : String := ""
  o2_space_name : String := ""
  o2_environment_id : String := ""
  selected_content_types : List String := []
  asset_strategy : String := "linked"
  content_type_map : List (String × String) := []
  asset_map : List (String × String) := []
  entry_map : List (String × String) := []
  migrated_content_types : List String := []
  migrated_assets : List String := []
  migrated_entries : List String := []
  linked_asset_ids : List String := []
  stats : MigStats := {}
  failed_assets : List String := []
  failed_entries : List String := []
deriving DecidableEq, Repr

/-- Python `state.asset_map.get(old_id, old_id)` where `old_id` is whatever
`sys.get("id")` returned: a string key is looked up with itself as the
fallback; other hashable values are never present in a string-keyed dict,
so the fallback (the value itself) is returned; unhashable values (lists,
dicts) raise TypeError. -/
def pyMapGetSelf (m : List (String × String)) (k : Json) : Except PyErr Json :=
  match k with
  | .str s => .ok (.str (strDictGetD m s s))
  | .arr _ => .error .typeError
  | .obj _ => .error .typeError
  | other => .ok other

mutual

/-- The `transform_field_value` function of migrate.py lines 763-789
(02_migrate.py lines 654-708 is textually identical): rewrites Asset and
Entry link references through `asset_map` / `entry_map` (falling back to
the original id), returns values with an unrecognized linkType unchanged,
and recurses into dict values and list elements otherwise.  `sys.get` on a
non-dict `sys` value raises AttributeError in Python, modelled as
`.error .attributeError`. -/
def transform_field_value : Json → MigrationState → Except PyErr Json
  | .obj kvs, state =>
    match jGetD kvs "sys" (.obj []) with
    | .obj sysKvs =>
      if jGet sysKvs "type" = some (.str "Link") then
        match jGet sysKvs "linkType" with
        | some (.str "Asset") =>
          match pyMapGetSelf state.asset_map (jGetD sysKvs "id" .null) with
          | .ok newId =>
            .ok (.obj [("sys", .obj [("type", .str "Link"), ("linkType", .str "Asset"),
              ("id", newId)])])
          | .error e => .error e
        | some (.str "Entry") =>
          match pyMapGetSelf state.entry_map (jGetD sysKvs "id" .null) with
          | .ok newId =>
            .ok (.obj [("sys", .obj [("type", .str "Link"), ("linkType", .str "Entry"),
              ("id", newId)])])
          | .error e => .error e
        | _ => .ok (.obj kvs)
      else
        match transformObjVals kvs state with
        | .ok kvs2 => .ok (.obj kvs2)
        | .error e => .error e
    | _ => .error .attributeError
  | .arr xs, state =>
    match transformListVals xs state with
    | .ok xs2 => .ok (.arr xs2)
    | .error e => .error e
  | v, _ => .ok v
termination_by structural v => v

/-- The list comprehension `[transform_field_value(item, state) for item in value]`. -/
def transformListVals : List Json → MigrationState → Except PyErr (List Json)
  | [], _ => .ok []
  | x :: xs, state =>
    match transform_field_value x state with
    | .ok y =>
      match transformListVals xs state with
      | .ok ys => .ok (y :: ys)
      | .error e => .error e
    | .error e => .error e
termination_by structural xs => xs

/-- The dict comprehension `{k: transform_field_value(v, state) for k, v in value.items()}`. -/
def transformObjVals : List (String × Json) → MigrationState → Except PyErr (List (String × Json))
  | [], _ => .ok []
  | (k, v) :: kvs, state =>
    match transform_field_value v state with
    | .ok w =>
      match transformObjVals kvs state with
      | .ok ws => .ok ((k, w) :: ws)
      | .error e => .error e
    | .error e => .error e
termination_by structural kvs => kvs

end

/-- The `transform_entry_fields` function of migrate.py lines 791-804
(02_migrate.py lines 637-651 is identical): fields whose value is not a
dict are skipped with `continue`; for dict-valued fields every per-locale
value is rewritten with `transform_field_value`. -/
def transform_entry_fields : List (String × Json) → MigrationState →
    Except PyErr (List (String × Json))
  | [], _ => .ok []
  | (fieldId, .obj localeVals) :: rest, state =>
    match transformObjVals localeVals state with
    | .ok locs =>
      match transform_entry_fields rest state with
      | .ok out => .ok ((fieldId, .obj locs) :: out)
      | .error e => .error e
    | .error e => .error e
  | (_, _) :: rest, state => transform_entry_fields rest state

/-- The canonical Contentful link shape
`{"sys": {"type": "Link", "linkType": lt, "id": i}}` with exactly those
keys in that order. -/
def canonicalLink (lt i : String) : Json :=
  .obj [("sys", .obj [("type", .str "Link"), ("linkType", .str lt), ("id", .str i)])]

/-- Recognizer for the canonical link shape, returning the linkType and id. -/
def isCanonicalLink : Json → Option (String × String)
  | .obj [("sys", .obj [("type", .str t), ("linkType", .str lt), ("id", .str i)])] =>
    if t = "Link" then some (lt, i) else none
  | _ => none

mutual

/-- A value is canonical when every dict whose `sys` member is a dict with
`type` equal to `"Link"` is exactly the canonical link shape (and every
`sys` member is a dict).  Real Contentful payloads, in particular rich-text
documents, satisfy this: their embedded references are exactly canonical
links. -/
def canonicalValue : Json → Bool
  | .obj kvs =>
    match jGet kvs "sys" with
    | some (.obj sysKvs) =>
      if jGet sysKvs "type" = some (.str "Link") then
        (isCanonicalLink (.obj kvs)).isSome
      else canonicalObjVals kvs
    | some _ => false
    | none => canonicalObjVals kvs
  | .arr xs => canonicalListVals xs
  | _ => true
termination_by structural v => v

def canonicalListVals : List Json → Bool
  | [] => true
  | x :: xs => canonicalValue x && canonicalListVals xs
termination_by structural xs => xs

def canonicalObjVals : List (String × Json) → Bool
  | [] => true
  | (_, v) :: kvs => canonicalValue v && canonicalObjVals kvs
termination_by structural kvs => kvs

end

mutual

/-- Specification-side description of reference rewriting: a structurally
identical value in which every canonical Asset (resp. Entry) link has its
id replaced through `asset_map` (resp. `entry_map`), keeping the original
id when no mapping exists, with links of any other linkType and all other
structure left unchanged. -/
def linkRemap (state : MigrationState) : Json → Json
  | .obj kvs =>
    match isCanonicalLink (.obj kvs) with
    | some (lt, i) =>
      if lt = "Asset" then canonicalLink "Asset" (strDictGetD state.asset_map i i)
      else if lt = "Entry" then canonicalLink "Entry" (strDictGetD state.entry_map i i)
      else .obj kvs
    | none => .obj (linkRemapObj state kvs)
  | .arr xs => .arr (linkRemapList state xs)
  | v => v
termination_by structural v => v

def linkRemapList (state : MigrationState) : List Json → List Json
  | [] => []
  | x :: xs => linkRemap state x :: linkRemapList state xs
termination_by structural xs => xs

def linkRemapObj (state : MigrationState) : List (String × Json) → List (String × Json)
  | [] => []
  | (k, v) :: kvs => (k, linkRemap state v) :: linkRemapObj state kvs
termination_by structural kvs => kvs

end

mutual

/-- Specification-side substitution: replace every subterm equal to the
canonical Asset link with id `a` by the canonical Asset link with id `b`,
leaving every other node unchanged. -/
def substAsset (a b : String) : Json → Json
  | .obj kvs =>
    if Json.obj kvs = canonicalLink "Asset" a then canonicalLink "Asset" b
    else .obj (substAssetObj a b kvs)
  | .arr xs => .arr (substAssetList a b xs)
  | v => v
termination_by structural v => v

def substAssetList (a b : String) : List Json → List Json
  | [] => []
  | x :: xs => substAsset a b x :: substAssetList a b xs
termination_by structural xs => xs

def substAssetObj (a b : String) : List (String × Json) → List (String × Json)
  | [] => []
  | (k, v) :: kvs => (k, substAsset a b v) :: substAssetObj a b kvs
termination_by structural kvs => kvs

end

mutual

/-- All ids of canonical Asset links occurring in a value (with multiplicity,
in traversal order). -/
def assetRefs : Json → List String
  | .obj kvs =>
    match isCanonicalLink (.obj kvs) with
    | some (lt, i) => if lt = "Asset" then [i] else []
    | none => assetRefsObj kvs
  | .arr xs => assetRefsList xs
  | _ => []
termination_by structural v => v

def assetRefsList : List Json → List String
  | [] => []
  | x :: xs => assetRefs x ++ assetRefsList xs
termination_by structural xs => xs

def assetRefsObj : List (String × Json) → List String
  | [] => []
  | (_, v) :: kvs => assetRefs v ++ assetRefsObj kvs
termination_by structural kvs => kvs

end

mutual

/-- All ids of canonical Entry links occurring in a value. -/
def entryRefs : Json → List String
  | .obj kvs =>
    match isCanonicalLink (.obj kvs) with
    | some (lt, i) => if lt = "Entry" then [i] else []
    | none => entryRefsObj kvs
  | .arr xs => entryRefsList xs
  | _ => []
termination_by structural v => v

def entryRefsList : List Json → List String
  | [] => []
  | x :: xs => entryRefs x ++ entryRefsList xs
termination_by structural xs => xs

def entryRefsObj : List (String × Json) → List String
  | [] => []
  | (_, v) :: kvs => entryRefs v ++ entryRefsObj kvs
termination_by structural kvs => kvs

end

mutual

/-- Whether a value contains a rich-text `embedded-asset-block` node whose
`data.target` is the canonical Asset link with id `a`. -/
def containsAssetBlock (a : String) : Json → Bool
  | .obj kvs =>
    ((jGet kvs "nodeType" == some (.str "embedded-asset-block")) &&
      (match jGetD kvs "data" (.obj []) with
       | .obj dkvs => jGet dkvs "target" == some (canonicalLink "Asset" a)
       | _ => false)) ||
    containsAssetBlockObj a kvs
  | .arr xs => containsAssetBlockList a xs
  | _ => false
termination_by structural v => v

def containsAssetBlockList (a : String) : List Json → Bool
  | [] => false
  | x :: xs => containsAssetBlock a x || containsAssetBlockList a xs
termination_by structural xs => xs

def containsAssetBlockObj (a : String) : List (String × Json) → Bool
  | [] => false
  | (_, v) :: kvs => containsAssetBlock a v || containsAssetBlockObj a kvs
termination_by structural kvs => kvs

end

/-- The constraint kinds kept by `transform_field` (migrate.py line 756). -/
def allowedValidationKinds : List String :=
  ["size", "range", "regexp", "in", "linkContentType", "linkMimetypeGroup"]

/-- Python `list(val.keys())[0] if val else None` for one validation object:
falsy values give `None`; a non-empty dict gives its first key; calling
`.keys()` on a truthy non-dict raises AttributeError. -/
def valKind : Json → Except PyErr (Option String)
  | v =>
    if pyFalsy v then .ok none
    else match v with
      | .obj ((k, _) :: _) => .ok (some k)
      | _ => .error .attributeError

/-- The `supported_validations` accumulation loop of `transform_field`
(migrate.py lines 753-757): keeps each validation object whose first key is
in the allow-list. -/
def supportedValidationsOf : List Json → Except PyErr (List Json)
  | [] => .ok []
  | val :: rest =>
    match valKind val with
    | .ok k =>
      match supportedValidationsOf rest with
      | .ok tail =>
        match k with
        | some kind => if kind ∈ allowedValidationKinds then .ok (val :: tail) else .ok tail
        | none => .ok tail
      | .error e => .error e
    | .error e => .error e

/-- The `transform_field` function of migrate.py lines 727-761: builds the
O2 field dict with keys id, name, type, required, localized (in that
order), appends linkType for Link fields and items for Array fields, and
appends the filtered validations list when non-empty.  Iterating a truthy
non-list `validations` value raises in Python (TypeError for numbers and
booleans; AttributeError from `.keys()` for strings, and for dicts at the
first non-empty key). -/
def transform_field (cf_field : List (String × Json)) : Except PyErr Json :=
  let fieldType := jGetD cf_field "type" (.str "Symbol")
  let linkType := jGetD cf_field "linkType" (.str "")
  let base0 : List (String × Json) :=
    [("id", jGetD cf_field "id" (.str "")),
     ("name", jGetD cf_field "name" (.str "")),
     ("type", fieldType),
     ("required", jGetD cf_field "required" (.bool false)),
     ("localized", jGetD cf_field "localized" (.bool false))]
  let base1 := if fieldType = .str "Link" then base0 ++ [("linkType", linkType)] else base0
  let withItems : Except PyErr (List (String × Json)) :=
    if fieldType = .str "Array" then
      match jGetD cf_field "items" (.obj []) with
      | .obj itemsKvs =>
        let it0 : List (String × Json) := [("type", jGetD itemsKvs "type" (.str "Symbol"))]
        let it1 := if pyTruthy (jGetD itemsKvs "linkType" .null) then
            it0 ++ [("linkType", jGetD itemsKvs "linkType" .null)] else it0
        let it2 := if pyTruthy (jGetD itemsKvs "validations" .null) then
            it1 ++ [("validations", jGetD itemsKvs "validations" .null)] else it1
        .ok (base1 ++ [("items", .obj it2)])
      | _ => .error .attributeError
    else .ok base1
  match withItems with
  | .error e => .error e
  | .ok base2 =>
    let validations := jGetD cf_field "validations" (.arr [])
    if pyTruthy validations then
      match validations with
      | .arr vals =>
        match supportedValidationsOf vals with
        | .ok supported =>
          if supported.isEmpty then .ok (.obj base2)
          else .ok (.obj (base2 ++ [("validations", .arr supported)]))
        | .error e => .error e
      | .obj kvs =>
        if kvs.all (fun p => p.1 = "") then .ok (.obj base2) else .error .attributeError
      | .str _ => .error .attributeError
      | _ => .error .typeError
    else .ok (.obj base2)

/-- Does a character list begin with the given pattern. -/
def charsBeginWith : List Char → List Char → Bool
  | _, [] => true
  | [], _ :: _ => false
  | a :: as, b :: bs => a = b && charsBeginWith as bs

/-- Does a character list contain the pattern as a contiguous sublist. -/
def charsContain (needle : List Char) : List Char → Bool
  | [] => charsBeginWith [] needle
  | c :: rest => charsBeginWith (c :: rest) needle || charsContain needle rest

/-- Python `needle in hay` substring containment on strings. -/
def strContains (hay needle : String) : Bool :=
  charsContain needle.toList hay.toList

/-- The mutable credential cache of `EmbargoedAssetSigner`: `asset_key`
holds `{"secret": .., "policy": ..}` (modelled as a secret/policy pair) and
`asset_key_expires` the expiry timestamp; both start as `None`. -/
structure SignerState where
  asset_key : Option (String × String) := none
  asset_key_expires : Option Int := none
deriving DecidableEq, Repr

/-- `EmbargoedAssetSigner.TOKEN_LIFETIME = 15 * 60` seconds. -/
def TOKEN_LIFETIME : Int := 15 * 60

/-- The `EmbargoedAssetSigner.get_or_create_asset_key` method (migrate.py
lines 202-224).  `now` is `datetime.now().timestamp()`, and `fetchKey`
abstracts the asset-key creation POST: given the requested `expiresAt` it
returns the (secret, policy) pair of the response.  The cached key is
reused when both cache fields are truthy (a present key dict is truthy; an
integer expiry is truthy when non-zero) and `now < expires - 300`;
otherwise a fresh key valid for 48 hours is fetched and cached. -/
def get_or_create_asset_key (st : SignerState) (now : Int)
    (fetchKey : Int → String × String) : (String × String) × SignerState :=
  let fresh :=
    let expiresAt := now + 48 * 60 * 60
    let kd := fetchKey expiresAt
    (kd, ({ asset_key := some kd, asset_key_expires := some expiresAt } : SignerState))
  match st.asset_key, st.asset_key_expires with
  | some key, some expiresV =>
    if expiresV ≠ 0 ∧ now < expiresV - 300 then (key, st) else fresh
  | _, _ => fresh

/-- The `EmbargoedAssetSigner.sign_url` method (migrate.py lines 226-238).
URLs not containing `"secure.ctfassets.net"` are returned unchanged (and
the cache is untouched); otherwise a scheme is prepended to
protocol-relative URLs, a key is obtained via `get_or_create_asset_key`,
and the JWT token (abstracted as `jwtEncode url exp secret`) and policy are
appended as query parameters. -/
def sign_url (st : SignerState) (url : String) (now : Int)
    (fetchKey : Int → String × String)
    (jwtEncode : String → Int → String → String) : String × SignerState :=
  if !(strContains url "secure.ctfassets.net") then (url, st)
  else
    let url2 := if url.startsWith "//" then "https:" ++ url else url
    let keySt := get_or_create_asset_key st now fetchKey
    let key := keySt.1
    let exp := now + TOKEN_LIFETIME
    let token := jwtEncode url2 exp key.1
    (url2 ++ "?token=" ++ token ++ "&policy=" ++ key.2, keySt.2)

/-- One content type already present at the destination, as returned by
`o2_client.get_content_types()`: `apiId` is `ct.get("apiId")` and `ctId`
is `ct.get("sys", {}).get("id")`, with `none` for a missing key. -/
structure ExistingCT where
  apiId : Option String := none
  ctId : Option String := none
deriving DecidableEq, Repr

/-- Stat helpers: the four `state.stats[stage][counter] += 1` updates and
`state.stats[stage]["total"] = n`. -/
def StageStats.addMigrated (s : StageStats) : StageStats := { s with migrated := s.migrated + 1 }

def StageStats.addSkipped (s : StageStats) : StageStats := { s with skipped := s.skipped + 1 }

def StageStats.addFailed (s : StageStats) : StageStats := { s with failed := s.failed + 1 }

def MigrationState.bumpCT (st : MigrationState) (f : StageStats → StageStats) : MigrationState :=
  { st with stats := { st.stats with content_types := f st.stats.content_types } }

def MigrationState.bumpAssets (st : MigrationState) (f : StageStats → StageStats) : MigrationState :=
  { st with stats := { st.stats with assets := f st.stats.assets } }

def MigrationState.bumpEntries (st : MigrationState) (f : StageStats → StageStats) : MigrationState :=
  { st with stats := { st.stats with entries := f st.stats.entries } }

/-- The pre-loop adoption of existing destination content types in
`migrate_content_types` (migrate.py lines 879-883): for every existing
content type with truthy `apiId` and `ctId`, `content_type_map[apiId] =
ctId`, without touching `migrated_content_types`. -/
def prepopulateCTMap (existing : List ExistingCT) (st : MigrationState) : MigrationState :=
  existing.foldl (fun acc ct =>
    match ct.apiId, ct.ctId with
    | some a, some c =>
      if a ≠ "" ∧ c ≠ "" then { acc with content_type_map := dictSet acc.content_type_map a c }
      else acc
    | _, _ => acc) st

/-- The body of the per-content-type loop of `migrate_content_types`
(migrate.py lines 892-933), for the item with source id `oldId`.
`create oldId` abstracts `o2_client.create_content_type` (the new sys id on
HTTP 201, `none` on failure) and `publish` abstracts
`o2_client.publish_content_type`; the publish result is only logged, so it
does not appear in the resulting state. -/
def ctStep (existing : List ExistingCT) (create : String → Option String)
    (publish : String → Bool) (st : MigrationState) (oldId : String) : MigrationState :=
  if oldId ∈ st.migrated_content_types then
    st.bumpCT StageStats.addSkipped
  else if existing.any (fun ct => ct.apiId = some oldId) then
    let newMap :=
      match existing.find? (fun ct => ct.apiId = some oldId) with
      | some ct => dictSet st.content_type_map oldId (ct.ctId.getD oldId)
      | none => st.content_type_map
    ({ st with content_type_map := newMap,
               migrated_content_types := st.migrated_content_types ++ [oldId]
     } : MigrationState).bumpCT StageStats.addSkipped
  else
    match create oldId with
    | some newId =>
      let published := publish newId
      ({ st with content_type_map := dictSet st.content_type_map oldId newId,
                 migrated_content_types := st.migrated_content_types ++ [oldId]
       } : MigrationState).bumpCT StageStats.addMigrated
    | none => st.bumpCT StageStats.addFailed

/-- The state-relevant behaviour of `migrate_content_types` (migrate.py
lines 869-941): adopt existing destination content types into the map, set
the stage total to the number of selected content types, then run the
per-item loop in listing order.  `ctData` is the id sequence of
`content_type_data`. -/
def migrate_content_types_model (existing : List ExistingCT)
    (create : String → Option String) (publish : String → Bool)
    (st : MigrationState) (ctData : List String) : MigrationState :=
  let st1 := prepopulateCTMap existing st
  let selected := ctData.filter (fun i => decide (i ∈ st1.selected_content_types))
  let st2 := { st1 with stats :=
    { st1.stats with content_types := { st1.stats.content_types with total := selected.length } } }
  selected.foldl (ctStep existing create publish) st2

/-- A source asset for the stage models: `id` is
`cf_asset.get("sys", {}).get("id", "")` and `fields` is
`cf_asset.get("fields", {})`. -/
structure CFAsset where
  id : String := ""
  fields : List (String × Json) := []
deriving DecidableEq, Repr

/-- The strategy filter of `migrate_assets` (migrate.py lines 1035-1041):
with the "linked" strategy only assets whose id is in
`linked_asset_ids` are kept, otherwise all assets are. -/
def selectAssetsByStrategy (st : MigrationState) (cfAssets : List CFAsset) : List CFAsset :=
  if st.asset_strategy = "linked" then
    cfAssets.filter (fun a => decide (a.id ∈ st.linked_asset_ids))
  else cfAssets

/-- One iteration of the already-migrated partition loop of
`migrate_assets` (migrate.py lines 1046-1052): an already-migrated asset
bumps the skipped counter, any other asset is appended to
`assets_to_migrate`. -/
def partitionAssetsStep (acc : MigrationState × List CFAsset) (a : CFAsset) :
    MigrationState × List CFAsset :=
  if a.id ∈ acc.1.migrated_assets then (acc.1.bumpAssets StageStats.addSkipped, acc.2)
  else (acc.1, acc.2 ++ [a])

/-- The selection-and-partition part of `migrate_assets` (migrate.py lines
1034-1052): filter by strategy, set the stage total, and split off the
assets submitted for processing. -/
def migrateAssetsSelect (st : MigrationState) (cfAssets : List CFAsset) :
    MigrationState × List CFAsset :=
  let toProcess := selectAssetsByStrategy st cfAssets
  let st1 := { st with stats :=
    { st.stats with assets := { st.stats.assets with total := toProcess.length } } }
  toProcess.foldl partitionAssetsStep (st1, [])

/-- The per-asset result statuses returned by `process_single_asset`
("migrated" with the new id, "skipped", or "failed"). -/
inductive AssetOutcome where
  | migrated (newId : String)
  | skipped
  | failed
deriving DecidableEq, Repr

/-- The `file_info` extraction of `process_single_asset` (migrate.py lines
950-974): a falsy or non-dict file field is skipped; the file info is the
first value when the first key is truthy and maps to a dict, else the
whole field when it has a "url" key, else the first value; a non-dict file
info or a falsy url is skipped.  Returns the url, fileName and contentType
values on success. -/
def extractFileInfo (fileField : Json) : Option (Json × Json × Json) :=
  if pyFalsy fileField then none
  else match fileField with
    | .obj kvs =>
      let fileInfo : Json :=
        match kvs with
        | [] => .obj []
        | (k0, v0) :: _ =>
          if (k0 != "") && (match v0 with | .obj _ => true | _ => false) then v0
          else if (jGet kvs "url").isSome then .obj kvs
          else v0
      match fileInfo with
      | .obj fi =>
        let url := jGetD fi "url" (.str "")
        if pyFalsy url then none
        else some (url, jGetD fi "fileName" (.str "file"), jGetD fi "contentType"
          (.str "application/octet-stream"))
      | _ => none
    | _ => none

/-- The `process_single_asset` function (migrate.py lines 943-1012) with
the network abstracted: `download url filename` is the success of
`download_asset_file` (signing and the temp file are internal to it),
`upload filename` is the upload id from `o2_client.upload_file` on success,
`createAsset uploadId` the new asset sys id from `o2_client.create_asset`
on HTTP 201, and `publishRes` the ignored result of
`o2_client.publish_asset`.  A non-string url or filename makes
`download_asset_file` raise internally, which it catches by returning
`None`, hence "failed". -/
def process_single_asset (a : CFAsset) (download : String → String → Bool)
    (upload : String → Option String) (createAsset : String → Option String)
    (publishRes : Bool) : String × AssetOutcome :=
  let fileField := jGetD a.fields "file" (.obj [])
  match extractFileInfo fileField with
  | none => (a.id, .skipped)
  | some (url, filename, _ctype) =>
    match url, filename with
    | .str u, .str fn =>
      if download u fn then
        match upload fn with
        | some uploadId =>
          match createAsset uploadId with
          | some newId =>
            let published := publishRes
            (a.id, .migrated newId)
          | none => (a.id, .failed)
        | none => (a.id, .failed)
      else (a.id, .failed)
    | _, _ => (a.id, .failed)

/-- The result-aggregation step of `migrate_assets` run under the state
lock (migrate.py lines 1079-1088): a migrated asset is added to
`asset_map` and `migrated_assets` together, a skipped asset only bumps the
skipped counter, and any other status appends to `failed_assets` and bumps
the failed counter. -/
def assetStep (st : MigrationState) (oldId : String) (oc : AssetOutcome) : MigrationState :=
  match oc with
  | .migrated newId =>
    ({ st with asset_map := dictSet st.asset_map oldId newId,
               migrated_assets := st.migrated_assets ++ [oldId]
     } : MigrationState).bumpAssets StageStats.addMigrated
  | .skipped => st.bumpAssets StageStats.addSkipped
  | .failed =>
    ({ st with failed_assets := st.failed_assets ++ [oldId]
     } : MigrationState).bumpAssets StageStats.addFailed

/-- The body of the per-entry loop of `migrate_entries` (migrate.py lines
1142-1172) for the entry with source id `oldId` and content type
`ctOldId`: skip if already migrated; fail when the content type mapping is
missing (or falsy); otherwise create (abstracted by `create oldId`), and on
success map the new id, mark migrated and publish (result only logged). -/
def entryStep (create : String → Option String) (publish : String → Bool)
    (st : MigrationState) (oldId ctOldId : String) : MigrationState :=
  if oldId ∈ st.migrated_entries then
    st.bumpEntries StageStats.addSkipped
  else
    match strDictFind st.content_type_map ctOldId with
    | none =>
      ({ st with failed_entries := st.failed_entries ++ [oldId]
       } : MigrationState).bumpEntries StageStats.addFailed
    | some newCt =>
      if newCt = "" then
        ({ st with failed_entries := st.failed_entries ++ [oldId]
         } : MigrationState).bumpEntries StageStats.addFailed
      else
        match create oldId with
        | some newId =>
          let published := publish newId
          ({ st with entry_map := dictSet st.entry_map oldId newId,
                     migrated_entries := st.migrated_entries ++ [oldId]
           } : MigrationState).bumpEntries StageStats.addMigrated
        | none =>
          ({ st with failed_entries := st.failed_entries ++ [oldId]
           } : MigrationState).bumpEntries StageStats.addFailed

/-- JSON encoding of a list of strings (as written by `json.dump`). -/
def jsonOfStringList (l : List String) : Json := .arr (l.map .str)

/-- JSON encoding of a string-to-string dict. -/
def jsonOfStrDict (m : List (String × String)) : Json :=
  .obj (m.map (fun p => (p.1, .str p.2)))

/-- JSON encoding of one stage's counters. -/
def jsonOfStageStats (s : StageStats) : Json :=
  .obj [("total", .num s.total), ("migrated", .num s.migrated),
        ("skipped", .num s.skipped), ("failed", .num s.failed)]

/-- JSON encoding of the `stats` dict. -/
def jsonOfStats (s : MigStats) : Json :=
  .obj [("content_types", jsonOfStageStats s.content_types),
        ("assets", jsonOfStageStats s.assets),
        ("entries", jsonOfStageStats s.entries)]

/-- `MigrationState.save` (migrate.py lines 167-169): the JSON document
`json.dump(asdict(self))` writes, with the dataclass fields in declaration
order. -/
def MigrationState.save (st : MigrationState) : Json :=
  .obj [("o2_space_id", .str st.o2_space_id),
        ("o2_space_name", .str st.o2_space_name),
        ("o2_environment_id", .str st.o2_environment_id),
        ("selected_content_types", jsonOfStringList st.selected_content_types),
        ("asset_strategy", .str st.asset_strategy),
        ("content_type_map", jsonOfStrDict st.content_type_map),
        ("asset_map", jsonOfStrDict st.asset_map),
        ("entry_map", jsonOfStrDict st.entry_map),
        ("migrated_content_types", jsonOfStringList st.migrated_content_types),
        ("migrated_assets", jsonOfStringList st.migrated_assets),
        ("migrated_entries", jsonOfStringList st.migrated_entries),
        ("linked_asset_ids", jsonOfStringList st.linked_asset_ids),
        ("stats", jsonOfStats st.stats),
        ("failed_assets", jsonOfStringList st.failed_assets),
        ("failed_entries", jsonOfStringList st.failed_entries)]

/-- Decode a JSON array of strings. -/
def decodeStringList : Json → Option (List String)
  | .arr xs => xs.mapM (fun x => match x with | .str s => some s | _ => none)
  | _ => none

/-- Decode a JSON object with string values into a string dict. -/
def decodeStrDict : Json → Option (List (String × String))
  | .obj kvs => kvs.mapM (fun p => match p.2 with | .str s => some (p.1, s) | _ => none)
  | _ => none

/-- Decode one stage's counters. -/
def decodeStageStats (v : Json) : Option StageStats :=
  match v with
  | .obj kvs =>
    match jGet kvs "total", jGet kvs "migrated", jGet kvs "skipped", jGet kvs "failed" with
    | some (.num t), some (.num m), some (.num sk), some (.num f) =>
      if 0 ≤ t ∧ 0 ≤ m ∧ 0 ≤ sk ∧ 0 ≤ f then
        some { total := t.toNat, migrated := m.toNat, skipped := sk.toNat, failed := f.toNat }
      else none
    | _, _, _, _ => none
  | _ => none

/-- Decode the `stats` dict. -/
def decodeStats (v : Json) : Option MigStats :=
  match v with
  | .obj kvs =>
    match jGet kvs "content_types", jGet kvs "assets", jGet kvs "entries" with
    | some c, some a, some e =>
      match decodeStageStats c, decodeStageStats a, decodeStageStats e with
      | some cs, some as2, some es => some { content_types := cs, assets := as2, entries := es }
      | _, _, _ => none
    | _, _, _ => none
  | _ => none

/-- One `setattr(state, key, value)` of `MigrationState.load` (migrate.py
lines 180-182): keys that are not dataclass fields are skipped
(`hasattr` is false); known keys replace the field with the decoded value.
Python's `setattr` performs no validation, so a value of the wrong shape
cannot arise from a `save`-produced document; such values are modelled as
leaving the field unchanged. -/
def setStateField (st : MigrationState) (k : String) (v : Json) : MigrationState :=
  if k = "o2_space_id" then
    match v with | .str s => { st with o2_space_id := s } | _ => st
  else if k = "o2_space_name" then
    match v with | .str s => { st with o2_space_name := s } | _ => st
  else if k = "o2_environment_id" then
    match v with | .str s => { st with o2_environment_id := s } | _ => st
  else if k = "selected_content_types" then
    match decodeStringList v with | some l => { st with selected_content_types := l } | none => st
  else if k = "asset_strategy" then
    match v with | .str s => { st with asset_strategy := s } | _ => st
  else if k = "content_type_map" then
    match decodeStrDict v with | some m => { st with content_type_map := m } | none => st
  else if k = "asset_map" then
    match decodeStrDict v with | some m => { st with asset_map := m } | none => st
  else if k = "entry_map" then
    match decodeStrDict v with | some m => { st with entry_map := m } | none => st
  else if k = "migrated_content_types" then
    match decodeStringList v with | some l => { st with migrated_content_types := l } | none => st
  else if k = "migrated_assets" then
    match decodeStringList v with | some l => { st with migrated_assets := l } | none => st
  else if k = "migrated_entries" then
    match decodeStringList v with | some l => { st with migrated_entries := l } | none => st
  else if k = "linked_asset_ids" then
    match decodeStringList v with | some l => { st with linked_asset_ids := l } | none => st
  else if k = "stats" then
    match decodeStats v with | some s => { st with stats := s } | none => st
  else if k = "failed_assets" then
    match decodeStringList v with | some l => { st with failed_assets := l } | none => st
  else if k = "failed_entries" then
    match decodeStringList v with | some l => { st with failed_entries := l } | none => st
  else st

/-- `MigrationState.load` (migrate.py lines 171-184): a missing state file
(`none`) yields a fresh default state; otherwise a default state is built
and every key of the loaded document that is a dataclass field is set. -/
def MigrationState.load (doc : Option Json) : MigrationState :=
  match doc with
  | none => {}
  | some (.obj kvs) => kvs.foldl (fun st p => setStateField st p.1 p.2) {}
  | some _ => {}

mutual

/-- `transform_field_value` instrumented with an explicit call-stack budget:
each recursive call into a child value consumes one unit, and `none` models
the Python interpreter raising RecursionError when the value nesting
exceeds the stack limit.  With enough fuel it agrees with
`transform_field_value` (no depth check or StructureError exists in the
code). -/
def tfvFuel : Nat → Json → MigrationState → Option (Except PyErr Json)
  | 0, _, _ => none
  | Nat.succ fuel, v, state =>
    match v with
    | .obj kvs =>
      match jGetD kvs "sys" (.obj []) with
      | .obj sysKvs =>
        if jGet sysKvs "type" = some (.str "Link") then
          match jGet sysKvs "linkType" with
          | some (.str "Asset") =>
            match pyMapGetSelf state.asset_map (jGetD sysKvs "id" .null) with
            | .ok newId =>
              some (.ok (.obj [("sys", .obj [("type", .str "Link"),
                ("linkType", .str "Asset"), ("id", newId)])]))
            | .error e => some (.error e)
          | some (.str "Entry") =>
            match pyMapGetSelf state.entry_map (jGetD sysKvs "id" .null) with
            | .ok newId =>
              some (.ok (.obj [("sys", .obj [("type", .str "Link"),
                ("linkType", .str "Entry"), ("id", newId)])]))
            | .error e => some (.error e)
          | _ => some (.ok (.obj kvs))
        else
          match tfvFuelObj fuel kvs state with
          | some (.ok kvs2) => some (.ok (.obj kvs2))
          | some (.error e) => some (.error e)
          | none => none
      | _ => some (.error .attributeError)
    | .arr xs =>
      match tfvFuelList fuel xs state with
      | some (.ok xs2) => some (.ok (.arr xs2))
      | some (.error e) => some (.error e)
      | none => none
    | w => some (.ok w)
termination_by fuel v state => (fuel, 0)

def tfvFuelList : Nat → List Json → MigrationState → Option (Except PyErr (List Json))
  | _, [], _ => some (.ok [])
  | fuel, x :: xs, state =>
    match tfvFuel fuel x state with
    | some (.ok y) =>
      match tfvFuelList fuel xs state with
      | some (.ok ys) => some (.ok (y :: ys))
      | some (.error e) => some (.error e)
      | none => none
    | some (.error e) => some (.error e)
    | none => none
termination_by fuel xs state => (fuel, xs.length + 1)

def tfvFuelObj : Nat → List (String × Json) → MigrationState →
    Option (Except PyErr (List (String × Json)))
  | _, [], _ => some (.ok [])
  | fuel, (k, v) :: kvs, state =>
    match tfvFuel fuel v state with
    | some (.ok w) =>
      match tfvFuelObj fuel kvs state with
      | some (.ok ws) => some (.ok ((k, w) :: ws))
      | some (.error e) => some (.error e)
      | none => none
    | some (.error e) => some (.error e)
    | none => none
termination_by fuel kvs state => (fuel, kvs.length + 1)

end

mutual

/-- Nesting depth of a value: one frame for the value itself plus the
deepest child; this is exactly the call-stack depth `transform_field_value`
needs. -/
def jsonDepth : Json → Nat
  | .arr xs => jsonDepthList xs + 1
  | .obj kvs => jsonDepthObj kvs + 1
  | _ => 1
termination_by structural v => v

def jsonDepthList : List Json → Nat
  | [] => 0
  | x :: xs => max (jsonDepth x) (jsonDepthList xs)
termination_by structural xs => xs

def jsonDepthObj : List (String × Json) → Nat
  | [] => 0
  | (_, v) :: kvs => max (jsonDepth v) (jsonDepthObj kvs)
termination_by structural kvs => kvs

end

/-- A list nested `n` levels deep, the canonical witness of unbounded
recursion depth. -/
def deepNest : Nat → Json
  | 0 => .null
  | n + 1 => .arr [deepNest n]

/-- Python `isinstance(value, dict)` on a JSON-shaped value. -/
def isDictJson : Json → Bool
  | .obj _ => true
  | _ => false

/-- Claim C10: `transform_entry_fields` silently omits every field whose
value is not a keyed mapping: a non-dict-valued field is dropped from the
output with no error, and the output's key sequence is exactly the
dict-valued fields' keys. -/
theorem claim_C10 (state : MigrationState) (fields : List (String × Json))
    (fieldId : String) (v : Json) (hv : isDictJson v = false) :
    transform_entry_fields ((fieldId, v) :: fields) state = transform_entry_fields fields state
  ∧ ∀ out, transform_entry_fields fields state = .ok out →
      out.map Prod.fst = (fields.filter (fun p => isDictJson p.2)).map Prod.fst := by
  constructor
  · cases v <;> simp_all [isDictJson, transform_entry_fields]
  · intro out
    induction fields generalizing out with
    | nil =>
      intro h
      simp [transform_entry_fields] at h
      simp [h]
    | cons p rest ih =>
      obtain ⟨fid, w⟩ := p
      cases w with
      | obj localeVals =>
        intro h
        simp only [transform_entry_fields] at h
        rcases h1 : transformObjVals localeVals state with e | locs <;> rw [h1] at h
        · simp at h
        · rcases h2 : transform_entry_fields rest state with e2 | out2 <;> rw [h2] at h
          · simp at h
          · simp at h
            subst h
            simp [isDictJson, ih out2 h2]
      | null => intro h; simpa [transform_entry_fields, isDictJson] using ih out h
      | bool b => intro h; simpa [transform_entry_fields, isDictJson] using ih out h
      | num n => intro h; simpa [transform_entry_fields, isDictJson] using ih out h
      | str s => intro h; simpa [transform_entry_fields, isDictJson] using ih out h
      | arr xs => intro h; simpa [transform_entry_fields, isDictJson] using ih out h

/-- Witness for C10 at a concrete input: a scalar-valued field and a
list-valued field are dropped, the locale-dict field survives. -/
theorem claim_C10_witness :
    transform_entry_fields
        [("slug", .str "bare"), ("tags", .arr [.str "t"]),
         ("title", .obj [("en-US", .str "Hello")])] {}
      = transform_entry_fields
        [("tags", .arr [.str "t"]), ("title", .obj [("en-US", .str "Hello")])] {}
  ∧ (transform_entry_fields
        [("slug", .str "bare"), ("tags", .arr [.str "t"]),
         ("title", .obj [("en-US", .str "Hello")])] {}).map (fun l => l.map Prod.fst)
      = .ok ["title"] := by
  refine ⟨(claim_C10 {} [("tags", .arr [.str "t"]), ("title", .obj [("en-US", .str "Hello")])]
    "slug" (.str "bare") (by decide)).1, ?_⟩
  decide

/-- Claim C7 (amended): URLs not containing the protected domain pass
through `sign_url` unchanged; `get_or_create_asset_key` returns the cached
credential exactly when the recorded expiry is non-zero and lies strictly
more than 300 seconds after `now` (the code tests `now < expires - 300`,
so a credential valid for exactly 300 more seconds is refreshed), and
otherwise fetches a fresh credential requested to be valid for 48 hours
(`now + 172800`). -/
theorem claim_C7 (st : SignerState) (url : String) (now : Int)
    (fetchKey : Int → String × String) (jwtEncode : String → Int → String → String)
    (key : String × String) (expiresV : Int) :
    (strContains url "secure.ctfassets.net" = false →
      sign_url st url now fetchKey jwtEncode = (url, st))
  ∧ (st.asset_key = some key → st.asset_key_expires = some expiresV → expiresV ≠ 0 →
      now < expiresV - 300 →
      get_or_create_asset_key st now fetchKey = (key, st))
  ∧ ((¬ ∃ k e, st.asset_key = some k ∧ st.asset_key_expires = some e ∧ e ≠ 0 ∧ now < e - 300) →
      get_or_create_asset_key st now fetchKey =
        (fetchKey (now + 48 * 60 * 60),
         { asset_key := some (fetchKey (now + 48 * 60 * 60)),
           asset_key_expires := some (now + 48 * 60 * 60) })) := by
  refine ⟨?_, ?_, ?_⟩
  · intro h
    simp [sign_url, h]
  · intro h1 h2 h3 h4
    simp [get_or_create_asset_key, h1, h2, h3, h4]
  · intro h
    rcases hk : st.asset_key with _ | k2
    · simp [get_or_create_asset_key, hk]
    · rcases he : st.asset_key_expires with _ | e2
      · simp [get_or_create_asset_key, hk, he]
      · have hcond : ¬ (e2 ≠ 0 ∧ now < e2 - 300) := by
          intro hc
          exact h ⟨k2, e2, hk, he, hc.1, hc.2⟩
        simp [get_or_create_asset_key, hk, he, hcond]

/-- Witness for C7: a non-protected URL passes through; a cache valid for
301 more seconds is reused; an expired cache triggers a fresh 48-hour
fetch. -/
theorem claim_C7_witness :
    sign_url { asset_key := some ("s", "p"), asset_key_expires := some 1301 }
        "https://images.ctfassets.net/a/b.png" 1000 (fun _ => ("s2", "p2"))
        (fun _ _ _ => "tok")
      = ("https://images.ctfassets.net/a/b.png",
         { asset_key := some ("s", "p"), asset_key_expires := some 1301 })
  ∧ get_or_create_asset_key { asset_key := some ("s", "p"), asset_key_expires := some 1301 }
        1000 (fun _ => ("s2", "p2"))
      = (("s", "p"), { asset_key := some ("s", "p"), asset_key_expires := some 1301 })
  ∧ get_or_create_asset_key { asset_key := some ("s", "p"), asset_key_expires := some 100 }
        1000 (fun _ => ("s2", "p2"))
      = (("s2", "p2"), { asset_key := some ("s2", "p2"), asset_key_expires := some 173800 }) := by
  refine ⟨?_, ?_, ?_⟩
  · exact (claim_C7 { asset_key := some ("s", "p"), asset_key_expires := some 1301 }
      "https://images.ctfassets.net/a/b.png" 1000 (fun _ => ("s2", "p2"))
      (fun _ _ _ => "tok") ("s", "p") 1301).1 (by decide)
  · exact (claim_C7 { asset_key := some ("s", "p"), asset_key_expires := some 1301 }
      "u" 1000 (fun _ => ("s2", "p2")) (fun _ _ _ => "tok") ("s", "p") 1301).2.1
      rfl rfl (by decide) (by decide)
  · exact ((claim_C7 { asset_key := some ("s", "p"), asset_key_expires := some 100 }
      "u" 1000 (fun _ => ("s2", "p2")) (fun _ _ _ => "tok") ("s", "p") 100).2.2
      (by rintro ⟨k, e, hk, he, hne, hlt⟩; cases he; omega)).trans (by decide)

/-- Counterexample to C7 as stated: a cached credential valid for exactly
300 seconds beyond `now` (expiry 1300, now 1000) is NOT reused — the code
tests `now < expires - 300` strictly, so it fetches a fresh credential —
whereas the claim says a credential valid for at least 300 seconds reuses
the cache. -/
theorem claim_C7_counterexample :
    get_or_create_asset_key { asset_key := some ("s", "p"), asset_key_expires := some 1300 }
        1000 (fun _ => ("s2", "p2"))
      = (("s2", "p2"), { asset_key := some ("s2", "p2"), asset_key_expires := some 173800 })
  ∧ (("s2", "p2") : String × String) ≠ ("s", "p") := by
  constructor
  · decide
  · decide

theorem filterSplitLength {α : Type} (l : List α) (p : α → Bool) :
    (l.filter p).length + (l.filter (fun a => !(p a))).length = l.length := by
  induction l with
  | nil => simp
  | cons x xs ih =>
    by_cases h : p x = true <;> simp [List.filter, h, ← ih] <;> omega

theorem partitionAssetsFold (l : List CFAsset) (st0 : MigrationState) (acc : List CFAsset) :
    (l.foldl partitionAssetsStep (st0, acc)).2
      = acc ++ l.filter (fun a => !(decide (a.id ∈ st0.migrated_assets)))
  ∧ (l.foldl partitionAssetsStep (st0, acc)).1.migrated_assets = st0.migrated_assets
  ∧ (l.foldl partitionAssetsStep (st0, acc)).1.stats.assets.skipped
      = st0.stats.assets.skipped
        + (l.filter (fun a => decide (a.id ∈ st0.migrated_assets))).length := by
  induction l generalizing st0 acc with
  | nil => simp
  | cons a rest ih =>
    by_cases h : a.id ∈ st0.migrated_assets
    · have hstep : partitionAssetsStep (st0, acc) a
          = (st0.bumpAssets StageStats.addSkipped, acc) := by
        simp [partitionAssetsStep, h]
      have hmig : (st0.bumpAssets StageStats.addSkipped).migrated_assets
          = st0.migrated_assets := by
        simp [MigrationState.bumpAssets]
      have hsk : (st0.bumpAssets StageStats.addSkipped).stats.assets.skipped
          = st0.stats.assets.skipped + 1 := by
        simp [MigrationState.bumpAssets, StageStats.addSkipped]
      obtain ⟨ih1, ih2, ih3⟩ := ih (st0.bumpAssets StageStats.addSkipped) acc
      refine ⟨?_, ?_, ?_⟩
      · simp only [List.foldl_cons, hstep, ih1, hmig]
        simp [List.filter, h]
      · simp only [List.foldl_cons, hstep, ih2, hmig]
      · simp only [List.foldl_cons, hstep, ih3, hmig, hsk]
        simp [List.filter, h]
        omega
    · have hstep : partitionAssetsStep (st0, acc) a = (st0, acc ++ [a]) := by
        simp [partitionAssetsStep, h]
      obtain ⟨ih1, ih2, ih3⟩ := ih st0 (acc ++ [a])
      refine ⟨?_, ?_, ?_⟩
      · simp only [List.foldl_cons, hstep, ih1]
        simp [List.filter, h]
      · simp only [List.foldl_cons, hstep, ih2]
      · simp only [List.foldl_cons, hstep, ih3]
        simp [List.filter, h]

/-- Claim C4: the asset stage partitions the strategy-selected assets by
membership in `migrated_assets` — already-migrated assets are counted as
skipped, and exactly the assets not in `migrated_assets` are submitted for
processing; with 10 selected assets of which 3 are recorded as migrated,
exactly the remaining 7 are attempted. -/
theorem claim_C4 (st : MigrationState) (cfAssets : List CFAsset) :
    (migrateAssetsSelect st cfAssets).2
      = (selectAssetsByStrategy st cfAssets).filter
          (fun a => !(decide (a.id ∈ st.migrated_assets)))
  ∧ (migrateAssetsSelect st cfAssets).1.migrated_assets = st.migrated_assets
  ∧ (migrateAssetsSelect st cfAssets).1.stats.assets.skipped
      = st.stats.assets.skipped
        + ((selectAssetsByStrategy st cfAssets).filter
            (fun a => decide (a.id ∈ st.migrated_assets))).length
  ∧ ((selectAssetsByStrategy st cfAssets).length = 10 →
      ((selectAssetsByStrategy st cfAssets).filter
        (fun a => decide (a.id ∈ st.migrated_assets))).length = 3 →
      (migrateAssetsSelect st cfAssets).2.length = 7) := by
  have hbase := partitionAssetsFold (selectAssetsByStrategy st cfAssets)
    { st with stats :=
      { st.stats with assets :=
        { st.stats.assets with total := (selectAssetsByStrategy st cfAssets).length } } } []
  obtain ⟨h1, h2, h3⟩ := hbase
  simp only [migrateAssetsSelect]
  refine ⟨by simpa using h1, by simpa using h2, by simpa using h3, ?_⟩
  intro hlen hmig
  have hsplit := filterSplitLength (selectAssetsByStrategy st cfAssets)
    (fun a => decide (a.id ∈ st.migrated_assets))
  simp only [h1]
  simp only [List.nil_append]
  rw [hlen] at hsplit
  rw [hmig] at hsplit
  omega

/-- Witness for C4 at a concrete input: with 10 assets, 3 of which the
state records as migrated, exactly the other 7 are submitted. -/
theorem claim_C4_witness :
    (migrateAssetsSelect
      { asset_strategy := "all", migrated_assets := ["a1", "a2", "a3"] }
      [{ id := "a1" }, { id := "a2" }, { id := "a3" }, { id := "a4" }, { id := "a5" },
       { id := "a6" }, { id := "a7" }, { id := "a8" }, { id := "a9" }, { id := "a10" }]).2.length
      = 7 := by
  exact (claim_C4
    { asset_strategy := "all", migrated_assets := ["a1", "a2", "a3"] }
    [{ id := "a1" }, { id := "a2" }, { id := "a3" }, { id := "a4" }, { id := "a5" },
     { id := "a6" }, { id := "a7" }, { id := "a8" }, { id := "a9" }, { id := "a10" }]).2.2.2
    (by decide) (by decide)

/-- The kind under which `transform_field` classifies one constraint
object: its first key (dict insertion order), with empty or falsy values
having no kind, kept exactly when the kind is in the allow-list. -/
def keepValidation : Json → Bool
  | .obj ((k, _) :: _) => decide (k ∈ allowedValidationKinds)
  | _ => false

theorem valKind_ok_keep (val : Json) (k : Option String) (h : valKind val = .ok k) :
    keepValidation val
      = (match k with | some kind => decide (kind ∈ allowedValidationKinds) | none => false) := by
  simp only [valKind] at h
  by_cases hf : pyFalsy val = true
  · rw [if_pos hf] at h
    simp at h
    subst h
    rcases val with _ | b | n | s | xs | kvs <;> simp_all [keepValidation, pyFalsy]
  · rw [if_neg hf] at h
    rcases val with _ | b | n | s | xs | kvs
    · simp [pyFalsy] at hf
    · simp at h
    · simp at h
    · simp at h
    · simp at h
    · rcases kvs with _ | ⟨⟨k0, v0⟩, kvs0⟩
      · simp [pyFalsy] at hf
      · simp at h
        subst h
        simp [keepValidation]

theorem supportedValidationsOf_ok (vals : List Json) (l : List Json)
    (h : supportedValidationsOf vals = .ok l) : l = vals.filter keepValidation := by
  induction vals generalizing l with
  | nil =>
    simp [supportedValidationsOf] at h
    simp [h]
  | cons val rest ih =>
    simp only [supportedValidationsOf] at h
    rcases hk : valKind val with e | k
    · rw [hk] at h
      simp at h
    · rw [hk] at h
      rcases ht : supportedValidationsOf rest with e2 | tail
      · rw [ht] at h
        simp at h
      · rw [ht] at h
        have htail := ih tail ht
        have hkeep := valKind_ok_keep val k hk
        rcases k with _ | kind
        · simp at h hkeep
          subst h
          simp [List.filter, hkeep, htail]
        · have h2 : (if kind ∈ allowedValidationKinds then Except.ok (val :: tail)
              else Except.ok tail) = Except.ok l := h
          have hkeep2 : keepValidation val = decide (kind ∈ allowedValidationKinds) := hkeep
          by_cases hmem : kind ∈ allowedValidationKinds
          · rw [if_pos hmem] at h2
            simp at h2
            subst h2
            simp [List.filter, hkeep2, htail, hmem]
          · rw [if_neg hmem] at h2
            simp at h2
            subst h2
            simp [List.filter, hkeep2, htail, hmem]

theorem jGet_append (l1 l2 : List (String × Json)) (k : String) :
    jGet (l1 ++ l2) k = match jGet l1 k with | some v => some v | none => jGet l2 k := by
  induction l1 with
  | nil => simp [jGet]
  | cons p rest ih =>
    by_cases h : p.1 = k
    · simp [jGet, List.find?, h]
    · simp only [jGet, List.cons_append, List.find?] at ih ⊢
      simp only [h, decide_eq_true_eq, if_neg]
      simp [h] at ih ⊢
      exact ih

/-- Claim C5: `transform_field` keeps exactly the constraint objects whose
kind (first key) is in the allow-list {size, range, regexp, in,
linkContentType, linkMimetypeGroup}, dropping all others; the output field
carries a `validations` key exactly when the kept list is non-empty. -/
theorem claim_C5 (cf : List (String × Json)) (vals : List Json) (outKvs : List (String × Json))
    (hvals : jGet cf "validations" = some (.arr vals))
    (hout : transform_field cf = .ok (.obj outKvs)) :
    jGet outKvs "validations"
      = (if (vals.filter keepValidation).isEmpty then none
         else some (.arr (vals.filter keepValidation))) := by
  have hval2 : jGetD cf "validations" (.arr []) = Json.arr vals := by simp [jGetD, hvals]
  simp only [transform_field, hval2] at hout
  have hsplit : ∃ base2 : List (String × Json),
      jGet base2 "validations" = none ∧
      (if pyTruthy (Json.arr vals) = true then
        match supportedValidationsOf vals with
        | Except.ok supported =>
          if supported.isEmpty = true then Except.ok (Json.obj base2)
          else Except.ok (Json.obj (base2 ++ [("validations", Json.arr supported)]))
        | Except.error e => Except.error e
      else Except.ok (Json.obj base2)) = Except.ok (Json.obj outKvs) := by
    by_cases hA : jGetD cf "type" (Json.str "Symbol") = Json.str "Array"
    · rw [if_pos hA] at hout
      rcases hIt : jGetD cf "items" (.obj []) with _ | b | n | s | xs | itemsKvs <;>
        rw [hIt] at hout
      · simp at hout
      · simp at hout
      · simp at hout
      · simp at hout
      · simp at hout
      · refine ⟨_, ?_, hout⟩
        by_cases hL : jGetD cf "type" (Json.str "Symbol") = Json.str "Link"
        · rw [if_pos hL]
          simp [jGet_append, jGet, List.find?]
        · rw [if_neg hL]
          simp [jGet_append, jGet, List.find?]
    · rw [if_neg hA] at hout
      refine ⟨_, ?_, hout⟩
      by_cases hL : jGetD cf "type" (Json.str "Symbol") = Json.str "Link"
      · rw [if_pos hL]
        simp [jGet_append, jGet, List.find?]
      · rw [if_neg hL]
        simp [jGet, List.find?]
  obtain ⟨base2, hbase, hout2⟩ := hsplit
  clear hout
  rcases vals with _ | ⟨v0, vrest⟩
  · simp [pyTruthy, pyFalsy] at hout2
    rw [← hout2]
    simp [hbase]
  · rcases hsup : supportedValidationsOf (v0 :: vrest) with e | supported
    · simp [hsup, pyTruthy, pyFalsy] at hout2
    · have hfil := supportedValidationsOf_ok _ supported hsup
      by_cases hse : supported = []
      · simp [hsup, hse, pyTruthy, pyFalsy, List.isEmpty_iff] at hout2
        rw [← hout2, ← hfil]
        simp [hse, hbase]
      · simp [hsup, hse, pyTruthy, pyFalsy, List.isEmpty_iff] at hout2
        rw [← hout2, ← hfil]
        rw [jGet_append, hbase]
        simp [hse, List.isEmpty_iff, jGet, List.find?]

/-- Witness for C5: the field with constraints `[{unique: true},
{size: {min: 1, max: 10}}]` keeps only the `size` constraint. -/
theorem claim_C5_witness :
    jGet [("id", .str "f"), ("name", .str "Field"), ("type", .str "Symbol"),
          ("required", .bool false), ("localized", .bool false),
          ("validations", .arr [.obj [("size", .obj [("min", .num 1), ("max", .num 10)])]])]
        "validations"
      = some (.arr [.obj [("size", .obj [("min", .num 1), ("max", .num 10)])]]) := by
  exact (claim_C5
    [("id", .str "f"), ("name", .str "Field"), ("type", .str "Symbol"),
     ("validations", .arr [.obj [("unique", .bool true)],
                           .obj [("size", .obj [("min", .num 1), ("max", .num 10)])]])]
    [.obj [("unique", .bool true)], .obj [("size", .obj [("min", .num 1), ("max", .num 10)])]]
    [("id", .str "f"), ("name", .str "Field"), ("type", .str "Symbol"),
     ("required", .bool false), ("localized", .bool false),
     ("validations", .arr [.obj [("size", .obj [("min", .num 1), ("max", .num 10)])]])]
    (by decide) (by decide)).trans (by decide)

/-- State after a successful content-type creation (used to state C6). -/
def ctCreatedState (st : MigrationState) (oldId newId : String) : MigrationState :=
  ({ st with content_type_map := dictSet st.content_type_map oldId newId,
             migrated_content_types := st.migrated_content_types ++ [oldId]
   } : MigrationState).bumpCT StageStats.addMigrated

/-- State after a successful entry creation (used to state C6). -/
def entryCreatedState (st : MigrationState) (oldId newId : String) : MigrationState :=
  ({ st with entry_map := dictSet st.entry_map oldId newId,
             migrated_entries := st.migrated_entries ++ [oldId]
   } : MigrationState).bumpEntries StageStats.addMigrated

theorem dictSet_key_mem (m : List (String × String)) (k v : String) :
    k ∈ (dictSet m k v).map Prod.fst := by
  by_cases hin : m.any (fun p => p.1 = k)
  · simp only [dictSet, if_pos hin]
    simp only [List.any_eq_true, decide_eq_true_eq] at hin
    obtain ⟨p, hp, hpk⟩ := hin
    simp only [List.map_map, List.mem_map]
    exact ⟨p, hp, by simp [Function.comp, hpk]⟩
  · simp [dictSet, if_neg hin]

/-- Claim C6: once an item's creation succeeds, the publish result cannot
change the resulting state: the item stays in the relevant map and
migrated set, the failed counter is untouched, and re-running the step on
the resulting state only counts the item as skipped (so the publish is
never retried).  Stated for all three stages; the two publish-oracle
arguments make the independence explicit. -/
theorem claim_C6
    (existing : List ExistingCT) (createCT : String → Option String)
    (pubCT1 pubCT2 : String → Bool) (st1 : MigrationState) (oldId1 newId1 : String)
    (hct1 : oldId1 ∉ st1.migrated_content_types)
    (hct2 : existing.any (fun ct => ct.apiId = some oldId1) = false)
    (hct3 : createCT oldId1 = some newId1)
    (a : CFAsset) (download : String → String → Bool) (upload : String → Option String)
    (createA : String → Option String) (pubA1 pubA2 : Bool)
    (u fn : String) (ct0 : Json) (uploadId newId2 : String) (st2 : MigrationState)
    (ha1 : extractFileInfo (jGetD a.fields "file" (.obj [])) = some (.str u, .str fn, ct0))
    (ha2 : download u fn = true)
    (ha3 : upload fn = some uploadId)
    (ha4 : createA uploadId = some newId2)
    (createE : String → Option String) (pubE1 pubE2 : String → Bool)
    (st3 : MigrationState) (oldId3 ctOldId newCt newId3 : String)
    (he1 : oldId3 ∉ st3.migrated_entries)
    (he2 : strDictFind st3.content_type_map ctOldId = some newCt)
    (he3 : newCt ≠ "")
    (he4 : createE oldId3 = some newId3) :
    (ctStep existing createCT pubCT1 st1 oldId1 = ctStep existing createCT pubCT2 st1 oldId1
     ∧ oldId1 ∈ (ctStep existing createCT pubCT1 st1 oldId1).migrated_content_types
     ∧ oldId1 ∈ (ctStep existing createCT pubCT1 st1 oldId1).content_type_map.map Prod.fst
     ∧ (ctStep existing createCT pubCT1 st1 oldId1).stats.content_types.failed
         = st1.stats.content_types.failed
     ∧ ctStep existing createCT pubCT1 (ctStep existing createCT pubCT1 st1 oldId1) oldId1
         = (ctStep existing createCT pubCT1 st1 oldId1).bumpCT StageStats.addSkipped)
  ∧ (process_single_asset a download upload createA pubA1 = (a.id, .migrated newId2)
     ∧ process_single_asset a download upload createA pubA1
         = process_single_asset a download upload createA pubA2
     ∧ a.id ∈ (assetStep st2 a.id (.migrated newId2)).migrated_assets
     ∧ a.id ∈ (assetStep st2 a.id (.migrated newId2)).asset_map.map Prod.fst
     ∧ (assetStep st2 a.id (.migrated newId2)).stats.assets.failed = st2.stats.assets.failed
     ∧ (assetStep st2 a.id (.migrated newId2)).failed_assets = st2.failed_assets)
  ∧ (entryStep createE pubE1 st3 oldId3 ctOldId = entryStep createE pubE2 st3 oldId3 ctOldId
     ∧ oldId3 ∈ (entryStep createE pubE1 st3 oldId3 ctOldId).migrated_entries
     ∧ oldId3 ∈ (entryStep createE pubE1 st3 oldId3 ctOldId).entry_map.map Prod.fst
     ∧ (entryStep createE pubE1 st3 oldId3 ctOldId).stats.entries.failed
         = st3.stats.entries.failed
     ∧ (entryStep createE pubE1 st3 oldId3 ctOldId).failed_entries = st3.failed_entries
     ∧ entryStep createE pubE1 (entryStep createE pubE1 st3 oldId3 ctOldId) oldId3 ctOldId
         = (entryStep createE pubE1 st3 oldId3 ctOldId).bumpEntries StageStats.addSkipped) := by
  have hstep : ∀ pb : String → Bool, ctStep existing createCT pb st1 oldId1
      = ctCreatedState st1 oldId1 newId1 := by
    intro pb
    simp [ctStep, ctCreatedState, hct1, hct2, hct3]
  have hestep : ∀ pb : String → Bool, entryStep createE pb st3 oldId3 ctOldId
      = entryCreatedState st3 oldId3 newId3 := by
    intro pb
    simp [entryStep, entryCreatedState, he1, he2, he3, he4]
  have hproc : ∀ pb : Bool, process_single_asset a download upload createA pb
      = (a.id, .migrated newId2) := by
    intro pb
    simp [process_single_asset, ha1, ha2, ha3, ha4]
  refine ⟨?_, ?_, ?_⟩
  · refine ⟨(hstep pubCT1).trans (hstep pubCT2).symm, ?_, ?_, ?_, ?_⟩
    · rw [hstep pubCT1]
      simp [ctCreatedState, MigrationState.bumpCT]
    · rw [hstep pubCT1]
      simpa [ctCreatedState, MigrationState.bumpCT]
        using dictSet_key_mem st1.content_type_map oldId1 newId1
    · rw [hstep pubCT1]
      simp [ctCreatedState, MigrationState.bumpCT, StageStats.addMigrated]
    · rw [hstep pubCT1]
      have hmem : oldId1 ∈ (ctCreatedState st1 oldId1 newId1).migrated_content_types := by
        simp [ctCreatedState, MigrationState.bumpCT]
      simp [ctStep, hmem]
  · refine ⟨hproc pubA1, (hproc pubA1).trans (hproc pubA2).symm, ?_, ?_, ?_, ?_⟩
    · simp [assetStep, MigrationState.bumpAssets]
    · simpa [assetStep, MigrationState.bumpAssets] using dictSet_key_mem st2.asset_map a.id newId2
    · simp [assetStep, MigrationState.bumpAssets, StageStats.addMigrated]
    · simp [assetStep, MigrationState.bumpAssets]
  · refine ⟨(hestep pubE1).trans (hestep pubE2).symm, ?_, ?_, ?_, ?_, ?_⟩
    · rw [hestep pubE1]
      simp [entryCreatedState, MigrationState.bumpEntries]
    · rw [hestep pubE1]
      simpa [entryCreatedState, MigrationState.bumpEntries]
        using dictSet_key_mem st3.entry_map oldId3 newId3
    · rw [hestep pubE1]
      simp [entryCreatedState, MigrationState.bumpEntries, StageStats.addMigrated]
    · rw [hestep pubE1]
      simp [entryCreatedState, MigrationState.bumpEntries]
    · rw [hestep pubE1]
      have hmem : oldId3 ∈ (entryCreatedState st3 oldId3 newId3).migrated_entries := by
        simp [entryCreatedState, MigrationState.bumpEntries]
      simp [entryStep, hmem]

/-- Witness for C6 at concrete inputs: a created content type's step is
publish-independent, a created asset counts as migrated with publish
failing, and a created entry is in the migrated set with publish failing. -/
theorem claim_C6_witness :
    ctStep [] (fun _ => some "N1") (fun _ => true) {} "c1"
      = ctStep [] (fun _ => some "N1") (fun _ => false) {} "c1"
  ∧ process_single_asset
      { id := "a1", fields := [("file", .obj [("en-US", .obj
          [("url", .str "https://h/x.png"), ("fileName", .str "x.png"),
           ("contentType", .str "image/png")])])] }
      (fun _ _ => true) (fun _ => some "U1") (fun _ => some "N2") false
      = ("a1", .migrated "N2")
  ∧ "e1" ∈ (entryStep (fun _ => some "N3") (fun _ => false)
      { content_type_map := [("ct", "X")] } "e1" "ct").migrated_entries := by
  have h := claim_C6 [] (fun _ => some "N1") (fun _ => true) (fun _ => false) {} "c1" "N1"
    (by decide) (by decide) (by decide)
    { id := "a1", fields := [("file", .obj [("en-US", .obj
        [("url", .str "https://h/x.png"), ("fileName", .str "x.png"),
         ("contentType", .str "image/png")])])] }
    (fun _ _ => true) (fun _ => some "U1") (fun _ => some "N2") true false
    "https://h/x.png" "x.png" (.str "image/png") "U1" "N2" {}
    (by decide) (by decide) (by decide) (by decide)
    (fun _ => some "N3") (fun _ => false) (fun _ => false)
    { content_type_map := [("ct", "X")] } "e1" "ct" "X" "N3"
    (by decide) (by decide) (by decide) (by decide)
  exact ⟨h.1.1, h.2.1.1, h.2.2.2.1⟩

theorem decodeStringList_enc (l : List String) :
    decodeStringList (jsonOfStringList l) = some l := by
  induction l with
  | nil => rfl
  | cons x xs ih =>
    simp only [decodeStringList, jsonOfStringList, List.map_cons, List.mapM_cons] at ih ⊢
    simp_all

theorem decodeStrDict_enc (m : List (String × String)) :
    decodeStrDict (jsonOfStrDict m) = some m := by
  induction m with
  | nil => rfl
  | cons p ps ih =>
    simp only [decodeStrDict, jsonOfStrDict, List.map_cons, List.mapM_cons] at ih ⊢
    simp_all

theorem decodeStageStats_enc (s : StageStats) :
    decodeStageStats (jsonOfStageStats s) = some s := by
  simp [decodeStageStats, jsonOfStageStats, jGet, List.find?]

theorem decodeStats_enc (s : MigStats) :
    decodeStats (jsonOfStats s) = some s := by
  simp [decodeStats, jsonOfStats, jGet, List.find?, decodeStageStats_enc]

/-- Claim C8: loading the persisted document written by `save` restores a
state equal to the original in every field.  The no-duplicate-key
hypotheses only restrict the quantification to states whose dict fields
are representable as Python dicts (a Python dict cannot carry duplicate
keys); the serialization itself is key-order preserving and lossless. -/
theorem claim_C8 (st : MigrationState)
    (h1 : (st.content_type_map.map Prod.fst).Nodup)
    (h2 : (st.asset_map.map Prod.fst).Nodup)
    (h3 : (st.entry_map.map Prod.fst).Nodup) :
    MigrationState.load (some st.save) = st := by
  obtain ⟨f1, f2, f3, f4, f5, f6, f7, f8, f9, f10, f11, f12, f13, f14, f15⟩ := st
  simp only [MigrationState.save, MigrationState.load, List.foldl_cons, List.foldl_nil]
  simp [setStateField, decodeStringList_enc, decodeStrDict_enc, decodeStats_enc]

/-- Witness for C8 at a concrete state with every field non-trivial. -/
theorem claim_C8_witness :
    MigrationState.load (some (MigrationState.save
      { o2_space_id := "sp", o2_space_name := "Space", o2_environment_id := "env",
        selected_content_types := ["ct1", "ct2"], asset_strategy := "all",
        content_type_map := [("ct1", "X1")], asset_map := [("a1", "B7")],
        entry_map := [("e1", "E2")], migrated_content_types := ["ct1"],
        migrated_assets := ["a1"], migrated_entries := ["e1"],
        linked_asset_ids := ["a1", "a2"],
        stats := { content_types := { total := 2, migrated := 1, skipped := 0, failed := 1 },
                   assets := { total := 1, migrated := 1, skipped := 0, failed := 0 },
                   entries := { total := 1, migrated := 1, skipped := 0, failed := 0 } },
        failed_assets := ["a9"], failed_entries := ["e9"] }))
      = { o2_space_id := "sp", o2_space_name := "Space", o2_environment_id := "env",
          selected_content_types := ["ct1", "ct2"], asset_strategy := "all",
          content_type_map := [("ct1", "X1")], asset_map := [("a1", "B7")],
          entry_map := [("e1", "E2")], migrated_content_types := ["ct1"],
          migrated_assets := ["a1"], migrated_entries := ["e1"],
          linked_asset_ids := ["a1", "a2"],
          stats := { content_types := { total := 2, migrated := 1, skipped := 0, failed := 1 },
                     assets := { total := 1, migrated := 1, skipped := 0, failed := 0 },
                     entries := { total := 1, migrated := 1, skipped := 0, failed := 0 } },
          failed_assets := ["a9"], failed_entries := ["e9"] } :=
  claim_C8 _ (by decide) (by decide) (by decide)

theorem tfvFuelList_of_ih (f : Nat) (state : MigrationState)
    (ih : ∀ v st2, jsonDepth v ≤ f → tfvFuel f v st2 = some (transform_field_value v st2)) :
    ∀ xs : List Json, jsonDepthList xs ≤ f →
      tfvFuelList f xs state = some (transformListVals xs state) := by
  intro xs
  induction xs with
  | nil => intro _; simp [tfvFuelList, transformListVals]
  | cons x rest ihr =>
    intro hd
    simp only [jsonDepthList] at hd
    have hx := ih x state (le_trans (le_max_left _ _) hd)
    have hr := ihr (le_trans (le_max_right _ _) hd)
    simp only [tfvFuelList, transformListVals, hx]
    rcases hres : transform_field_value x state with e | y
    · rfl
    · rw [hr]
      rcases hres2 : transformListVals rest state with e2 | ys <;> rfl

theorem tfvFuelObj_of_ih (f : Nat) (state : MigrationState)
    (ih : ∀ v st2, jsonDepth v ≤ f → tfvFuel f v st2 = some (transform_field_value v st2)) :
    ∀ kvs : List (String × Json), jsonDepthObj kvs ≤ f →
      tfvFuelObj f kvs state = some (transformObjVals kvs state) := by
  intro kvs
  induction kvs with
  | nil => intro _; simp [tfvFuelObj, transformObjVals]
  | cons p rest ihr =>
    obtain ⟨k, v⟩ := p
    intro hd
    simp only [jsonDepthObj] at hd
    have hx := ih v state (le_trans (le_max_left _ _) hd)
    have hr := ihr (le_trans (le_max_right _ _) hd)
    simp only [tfvFuelObj, transformObjVals, hx]
    rcases hres : transform_field_value v state with e | y
    · rfl
    · rw [hr]
      rcases hres2 : transformObjVals rest state with e2 | ys <;> rfl

theorem tfvFuel_depth : ∀ (fuel : Nat) (v : Json) (state : MigrationState),
    jsonDepth v ≤ fuel → tfvFuel fuel v state = some (transform_field_value v state) := by
  intro fuel
  induction fuel with
  | zero =>
    intro v state h
    exfalso
    rcases v with _ | b | n | s | xs | kvs <;> simp [jsonDepth] at h
  | succ f ih =>
    intro v state h
    rcases v with _ | b | n | s | xs | kvs
    · simp [tfvFuel, transform_field_value]
    · simp [tfvFuel, transform_field_value]
    · simp [tfvFuel, transform_field_value]
    · simp [tfvFuel, transform_field_value]
    · simp only [jsonDepth] at h
      have hl := tfvFuelList_of_ih f state ih xs (by omega)
      simp only [tfvFuel, transform_field_value, hl]
      rcases hres : transformListVals xs state with e | ys <;> rfl
    · simp only [jsonDepth] at h
      have ho := tfvFuelObj_of_ih f state ih kvs (by omega)
      simp only [tfvFuel, transform_field_value]
      rcases hsys : jGetD kvs "sys" (.obj []) with _ | b2 | n2 | s2 | xs2 | sysKvs
      · rfl
      · rfl
      · rfl
      · rfl
      · rfl
      · by_cases hty : jGet sysKvs "type" = some (.str "Link")
        · dsimp only
          simp only [if_pos hty]
          rcases hlt : jGet sysKvs "linkType" with _ | ltv
          · rfl
          · rcases ltv with _ | b3 | n3 | s3 | xs3 | kvs3
            · rfl
            · rfl
            · rfl
            · by_cases hA : s3 = "Asset"
              · subst hA
                rcases hpm : pyMapGetSelf state.asset_map (jGetD sysKvs "id" .null)
                  with e | newId <;> rfl
              · by_cases hE : s3 = "Entry"
                · subst hE
                  rcases hpm : pyMapGetSelf state.entry_map (jGetD sysKvs "id" .null)
                    with e | newId <;> rfl
                · split <;> simp_all
            · rfl
            · rfl
        · dsimp only
          simp only [if_neg hty, ho]
          rcases hres : transformObjVals kvs state with e | ws <;> rfl

theorem tfvFuel_deepNest_none : ∀ (n : Nat) (state : MigrationState),
    tfvFuel n (deepNest n) state = none := by
  intro n
  induction n with
  | zero => intro state; simp [tfvFuel]
  | succ m ih =>
    intro state
    simp [deepNest, tfvFuel, tfvFuelList, ih state]

theorem jsonDepth_deepNest : ∀ n : Nat, jsonDepth (deepNest n) = n + 1 := by
  intro n
  induction n with
  | zero => rfl
  | succ m ih => simp [deepNest, jsonDepth, jsonDepthList, ih]

theorem tfv_deepNest : ∀ (n : Nat) (state : MigrationState),
    transform_field_value (deepNest n) state = .ok (deepNest n) := by
  intro n
  induction n with
  | zero => intro state; simp [deepNest, transform_field_value]
  | succ m ih =>
    intro state
    simp [deepNest, transform_field_value, transformListVals, ih state]

/-- Claim C9 (amended): `transform_field_value` terminates normally on
every finite value, with required call-stack depth exactly the value's
nesting depth — the code contains no defensive depth bound and no
StructureError; its recursion is limited only by the runtime call stack,
so a value nested deeper than the available stack budget fails by stack
exhaustion (the fuel model's `none`, Python's RecursionError), never by a
StructureError. -/
theorem claim_C9 :
    (∀ (v : Json) (state : MigrationState),
      tfvFuel (jsonDepth v) v state = some (transform_field_value v state))
  ∧ (∀ (n : Nat) (state : MigrationState), tfvFuel n (deepNest n) state = none) :=
  ⟨fun v state => tfvFuel_depth (jsonDepth v) v state (le_refl _),
   tfvFuel_deepNest_none⟩

/-- Counterexample to C9 as stated: with a call-stack budget of 100
frames, the value nested 100 levels deep neither terminates normally nor
raises a StructureError — evaluation runs out of stack (`none`; Python's
RecursionError), and with one more frame it simply recurses deeper and
succeeds, showing no defensive depth bound exists in the code. -/
theorem claim_C9_counterexample :
    tfvFuel 100 (deepNest 100) {} = none
  ∧ tfvFuel 101 (deepNest 100) {} = some (.ok (deepNest 100)) := by
  constructor
  · exact tfvFuel_deepNest_none 100 {}
  · have h := tfvFuel_depth 101 (deepNest 100) {} (by rw [jsonDepth_deepNest])
    rw [h, tfv_deepNest]

theorem isCanonicalLink_some (v : Json) (lt i : String)
    (h : isCanonicalLink v = some (lt, i)) : v = canonicalLink lt i := by
  unfold isCanonicalLink at h
  split at h
  · split at h
    · simp at h
      obtain ⟨h1, h2⟩ := h
      subst h1
      subst h2
      rename_i t lt2 i2 ht
      simp [canonicalLink, ht]
    · simp at h
  · simp at h

theorem isCanonicalLink_canonicalLink (lt i : String) :
    isCanonicalLink (canonicalLink lt i) = some (lt, i) := rfl

theorem tfv_canonical : ∀ v : Json, ∀ state : MigrationState, canonicalValue v = true →
    transform_field_value v state = .ok (linkRemap state v) := by
  intro v
  induction v using Json.memRec with
  | hnull => intro state _; rfl
  | hbool b => intro state _; rfl
  | hnum n => intro state _; rfl
  | hstr s => intro state _; rfl
  | harr xs ih =>
    intro state h
    simp only [canonicalValue] at h
    have hlist : ∀ ys : List Json, (∀ x ∈ ys, ∀ st2, canonicalValue x = true →
        transform_field_value x st2 = .ok (linkRemap st2 x)) →
        canonicalListVals ys = true →
        transformListVals ys state = .ok (linkRemapList state ys) := by
      intro ys
      induction ys with
      | nil => intro _ _; rfl
      | cons y rest ihr =>
        intro hmem hc
        simp only [canonicalListVals, Bool.and_eq_true] at hc
        have hy := hmem y (by simp) state hc.1
        have hr := ihr (fun z hz => hmem z (by simp [hz])) hc.2
        simp only [transformListVals, linkRemapList, hy, hr]
    simp only [transform_field_value, linkRemap, hlist xs ih h]
  | hobj kvs ih =>
    intro state h
    have hobjvals : ∀ zs : List (String × Json), (∀ p ∈ zs, ∀ st2, canonicalValue p.2 = true →
        transform_field_value p.2 st2 = .ok (linkRemap st2 p.2)) →
        canonicalObjVals zs = true →
        transformObjVals zs state = .ok (linkRemapObj state zs) := by
      intro zs
      induction zs with
      | nil => intro _ _; rfl
      | cons p rest ihr =>
        obtain ⟨k1, v1⟩ := p
        intro hmem hc
        simp only [canonicalObjVals, Bool.and_eq_true] at hc
        have hv := hmem (k1, v1) (by simp) state hc.1
        have hr := ihr (fun z hz => hmem z (by simp [hz])) hc.2
        simp only [transformObjVals, linkRemapObj, hv, hr]
    rcases hget : jGet kvs "sys" with _ | sv
    · simp only [canonicalValue, hget] at h
      have hnone : isCanonicalLink (.obj kvs) = none := by
        rcases hcl : isCanonicalLink (.obj kvs) with _ | ⟨lt, i⟩
        · rfl
        · exfalso
          have hshape := isCanonicalLink_some _ _ _ hcl
          have hk : kvs = [("sys", Json.obj [("type", .str "Link"), ("linkType", .str lt),
              ("id", .str i)])] := by
            simpa [canonicalLink] using hshape
          subst hk
          simp [jGet, List.find?] at hget
      simp only [transform_field_value, linkRemap, jGetD, hget, hnone, Option.getD_none]
      simp [jGet, List.find?, hobjvals kvs ih h]
    · rcases sv with _ | b2 | n2 | s2 | xs2 | sysKvs
      · simp only [canonicalValue, hget] at h
        simp at h
      · simp only [canonicalValue, hget] at h
        simp at h
      · simp only [canonicalValue, hget] at h
        simp at h
      · simp only [canonicalValue, hget] at h
        simp at h
      · simp only [canonicalValue, hget] at h
        simp at h
      · simp only [canonicalValue, hget] at h
        by_cases hty : jGet sysKvs "type" = some (.str "Link")
        · rw [if_pos hty] at h
          rcases hcl : isCanonicalLink (.obj kvs) with _ | ⟨lt, i⟩
          · rw [hcl] at h
            simp at h
          · have hshape := isCanonicalLink_some _ _ _ hcl
            have hk : kvs = [("sys", Json.obj [("type", .str "Link"), ("linkType", .str lt),
                ("id", .str i)])] := by
              simpa [canonicalLink] using hshape
            subst hk
            simp only [jGet, List.find?] at hget
            simp at hget
            by_cases hA : lt = "Asset"
            · subst hA
              simp [transform_field_value, linkRemap, hcl, jGet, jGetD, List.find?,
                pyMapGetSelf, canonicalLink, strDictGetD]
            · by_cases hE : lt = "Entry"
              · subst hE
                simp [transform_field_value, linkRemap, hcl, jGet, jGetD, List.find?,
                  pyMapGetSelf, canonicalLink, strDictGetD]
              · simp only [linkRemap, hcl, if_neg hA, if_neg hE]
                clear hshape h hcl ih hobjvals
                simp only [transform_field_value]
                simp [jGet, jGetD, List.find?]
                split <;> simp_all
        · rw [if_neg hty] at h
          have hnone : isCanonicalLink (.obj kvs) = none := by
            rcases hcl : isCanonicalLink (.obj kvs) with _ | ⟨lt, i⟩
            · rfl
            · exfalso
              have hshape := isCanonicalLink_some _ _ _ hcl
              have hk : kvs = [("sys", Json.obj [("type", .str "Link"), ("linkType", .str lt),
                  ("id", .str i)])] := by
                simpa [canonicalLink] using hshape
              subst hk
              simp only [jGet, List.find?] at hget
              simp at hget
              apply hty
              rw [← hget]
              simp [jGet, List.find?]
          simp only [transform_field_value, linkRemap, jGetD, hget, hnone, Option.getD_some]
          simp [hty, hobjvals kvs ih h]

/-- Claim C1 (amended): on values whose Asset/Entry cross-references are in
canonical Contentful form (`{"sys": {"type": "Link", "linkType": lt,
"id": i}}` with exactly those keys), `transform_field_value` returns
exactly the structurally identical value with every Asset (resp. Entry)
reference id mapped through `asset_map` (resp. `entry_map`), keeping the
original id when no mapping exists (`linkRemap`).  For a non-canonical
link dict the code rebuilds the node in canonical form, dropping any extra
keys (see the counterexample), so the claim's "structurally identical"
only holds on the canonical domain. -/
theorem claim_C1 (v : Json) (state : MigrationState) (h : canonicalValue v = true) :
    transform_field_value v state = .ok (linkRemap state v) :=
  tfv_canonical v state h

/-- Witness for C1: a canonical value with a mapped Asset reference, an
unmapped Entry reference and a scalar resolves to the structurally
identical value with only the mapped Asset id replaced. -/
theorem claim_C1_witness :
    canonicalValue (.obj [("a", canonicalLink "Asset" "A1"),
        ("b", .arr [canonicalLink "Entry" "E9"]), ("t", .str "hello")]) = true
  ∧ transform_field_value (.obj [("a", canonicalLink "Asset" "A1"),
        ("b", .arr [canonicalLink "Entry" "E9"]), ("t", .str "hello")])
      { asset_map := [("A1", "B7")] }
    = .ok (.obj [("a", canonicalLink "Asset" "B7"),
        ("b", .arr [canonicalLink "Entry" "E9"]), ("t", .str "hello")]) :=
  ⟨by decide,
   (claim_C1 (.obj [("a", canonicalLink "Asset" "A1"),
        ("b", .arr [canonicalLink "Entry" "E9"]), ("t", .str "hello")])
      { asset_map := [("A1", "B7")] } (by decide)).trans (by decide)⟩

/-- Counterexample to C1 as stated: a value that is a direct Asset
cross-reference (sys.type = "Link", sys.linkType = "Asset") but carries an
extra sibling key "label" is NOT mapped to a structurally identical value:
the code rebuilds the node as the bare canonical link, so "label" is
dropped, while the claim requires only the id to change. -/
theorem claim_C1_counterexample :
    transform_field_value
      (.obj [("sys", .obj [("type", .str "Link"), ("linkType", .str "Asset"),
          ("id", .str "A1")]), ("label", .str "x")])
      { asset_map := [("A1", "B7")] }
    = .ok (.obj [("sys", .obj [("type", .str "Link"), ("linkType", .str "Asset"),
        ("id", .str "B7")])])
  ∧ (Json.obj [("sys", .obj [("type", .str "Link"), ("linkType", .str "Asset"),
        ("id", .str "B7")])]
     ≠ .obj [("sys", .obj [("type", .str "Link"), ("linkType", .str "Asset"),
        ("id", .str "B7")]), ("label", .str "x")]) := by
  constructor
  · decide
  · decide

theorem linkRemap_substAsset (a b : String) (state : MigrationState)
    (hmap : strDictFind state.asset_map a = some b) :
    ∀ v : Json,
      (∀ i ∈ assetRefs v, i ≠ a → strDictFind state.asset_map i = none) →
      (∀ i ∈ entryRefs v, strDictFind state.entry_map i = none) →
      linkRemap state v = substAsset a b v := by
  intro v
  induction v using Json.memRec with
  | hnull => intro _ _; rfl
  | hbool x => intro _ _; rfl
  | hnum x => intro _ _; rfl
  | hstr x => intro _ _; rfl
  | harr xs ih =>
    intro ha he
    simp only [assetRefs] at ha
    simp only [entryRefs] at he
    have hlist : ∀ ys : List Json, (∀ x ∈ ys,
        (∀ i ∈ assetRefs x, i ≠ a → strDictFind state.asset_map i = none) →
        (∀ i ∈ entryRefs x, strDictFind state.entry_map i = none) →
        linkRemap state x = substAsset a b x) →
        (∀ i ∈ assetRefsList ys, i ≠ a → strDictFind state.asset_map i = none) →
        (∀ i ∈ entryRefsList ys, strDictFind state.entry_map i = none) →
        linkRemapList state ys = substAssetList a b ys := by
      intro ys
      induction ys with
      | nil => intro _ _ _; rfl
      | cons y rest ihr =>
        intro hmem ha2 he2
        simp only [assetRefsList, List.mem_append] at ha2
        simp only [entryRefsList, List.mem_append] at he2
        have hy := hmem y (by simp) (fun i hi hne => ha2 i (Or.inl hi) hne)
          (fun i hi => he2 i (Or.inl hi))
        have hr := ihr (fun z hz => hmem z (by simp [hz]))
          (fun i hi hne => ha2 i (Or.inr hi) hne) (fun i hi => he2 i (Or.inr hi))
        simp only [linkRemapList, substAssetList, hy, hr]
    simp only [linkRemap, substAsset, hlist xs ih ha he]
  | hobj kvs ih =>
    intro ha he
    rcases hcl : isCanonicalLink (.obj kvs) with _ | ⟨lt, i⟩
    · have hne : Json.obj kvs ≠ canonicalLink "Asset" a := by
        intro hx
        rw [hx, isCanonicalLink_canonicalLink] at hcl
        cases hcl
      simp only [assetRefs, hcl] at ha
      simp only [entryRefs, hcl] at he
      have hobjl : ∀ zs : List (String × Json), (∀ p ∈ zs,
          (∀ i ∈ assetRefs p.2, i ≠ a → strDictFind state.asset_map i = none) →
          (∀ i ∈ entryRefs p.2, strDictFind state.entry_map i = none) →
          linkRemap state p.2 = substAsset a b p.2) →
          (∀ i ∈ assetRefsObj zs, i ≠ a → strDictFind state.asset_map i = none) →
          (∀ i ∈ entryRefsObj zs, strDictFind state.entry_map i = none) →
          linkRemapObj state zs = substAssetObj a b zs := by
        intro zs
        induction zs with
        | nil => intro _ _ _; rfl
        | cons p rest ihr =>
          obtain ⟨k1, v1⟩ := p
          intro hmem ha2 he2
          simp only [assetRefsObj, List.mem_append] at ha2
          simp only [entryRefsObj, List.mem_append] at he2
          have hv := hmem (k1, v1) (by simp) (fun i hi hne => ha2 i (Or.inl hi) hne)
            (fun i hi => he2 i (Or.inl hi))
          have hr := ihr (fun z hz => hmem z (by simp [hz]))
            (fun i hi hne => ha2 i (Or.inr hi) hne) (fun i hi => he2 i (Or.inr hi))
          simp only [linkRemapObj, substAssetObj, hv, hr]
      simp only [linkRemap, hcl, substAsset, if_neg hne, hobjl kvs ih ha he]
    · have hshape := isCanonicalLink_some _ _ _ hcl
      have hk : kvs = [("sys", Json.obj [("type", .str "Link"), ("linkType", .str lt),
          ("id", .str i)])] := by
        simpa [canonicalLink] using hshape
      subst hk
      by_cases hA : lt = "Asset"
      · subst hA
        simp only [assetRefs, hcl, if_pos rfl] at ha
        by_cases hia : i = a
        · subst hia
          have hgd : strDictGetD state.asset_map i i = b := by
            simp [strDictGetD, hmap]
          simp [linkRemap, hcl, substAsset, substAssetObj, substAssetList,
            canonicalLink, hgd]
        · have hnone := ha i (by simp) hia
          have hgd : strDictGetD state.asset_map i i = i := by
            simp [strDictGetD, hnone]
          simp [linkRemap, hcl, substAsset, substAssetObj, substAssetList,
            canonicalLink, hgd, hia]
      · by_cases hEnt : lt = "Entry"
        · subst hEnt
          simp only [entryRefs, hcl, if_pos rfl] at he
          have hnone := he i (by simp)
          have hgd : strDictGetD state.entry_map i i = i := by
            simp [strDictGetD, hnone]
          simp [linkRemap, hcl, substAsset, substAssetObj, substAssetList,
            canonicalLink, hgd]
        · simp [linkRemap, hcl, substAsset, substAssetObj, substAssetList,
            canonicalLink, hA, hEnt]

/-- Claim C2: a canonical (rich-text) document containing an
embedded-asset-block node whose target id `a` is mapped to `b`, all of
whose other asset references are unmapped and whose entry references are
unmapped, resolves to the structurally identical document in which that
one target id is replaced by `b` and every other node is unchanged
(`substAsset a b`, pure substitution of the canonical `a`-Asset link by
the canonical `b`-Asset link). -/
theorem claim_C2 (doc : Json) (state : MigrationState) (a b : String)
    (hcanon : canonicalValue doc = true)
    (hmap : strDictFind state.asset_map a = some b)
    (hothers : ∀ i ∈ assetRefs doc, i ≠ a → strDictFind state.asset_map i = none)
    (hentries : ∀ i ∈ entryRefs doc, strDictFind state.entry_map i = none)
    (hblock : containsAssetBlock a doc = true)
    (honce : (assetRefs doc).count a = 1) :
    transform_field_value doc state = .ok (substAsset a b doc) := by
  rw [tfv_canonical doc state hcanon,
    linkRemap_substAsset a b state hmap doc hothers hentries]

/-- Witness for C2: a two-node rich-text document whose
embedded-asset-block targets A1 (mapped to B7) resolves to the identical
document with only that target id replaced. -/
theorem claim_C2_witness :
    transform_field_value
      (.obj [("nodeType", .str "document"), ("content", .arr [
        .obj [("nodeType", .str "embedded-asset-block"),
              ("data", .obj [("target", canonicalLink "Asset" "A1")]),
              ("content", .arr [])],
        .obj [("nodeType", .str "paragraph"),
              ("content", .arr [.obj [("nodeType", .str "text"), ("value", .str "hi")]])]])])
      { asset_map := [("A1", "B7")] }
    = .ok (.obj [("nodeType", .str "document"), ("content", .arr [
        .obj [("nodeType", .str "embedded-asset-block"),
              ("data", .obj [("target", canonicalLink "Asset" "B7")]),
              ("content", .arr [])],
        .obj [("nodeType", .str "paragraph"),
              ("content", .arr [.obj [("nodeType", .str "text"), ("value", .str "hi")]])]])]) :=
  (claim_C2
    (.obj [("nodeType", .str "document"), ("content", .arr [
      .obj [("nodeType", .str "embedded-asset-block"),
            ("data", .obj [("target", canonicalLink "Asset" "A1")]),
            ("content", .arr [])],
      .obj [("nodeType", .str "paragraph"),
            ("content", .arr [.obj [("nodeType", .str "text"), ("value", .str "hi")]])]])])
    { asset_map := [("A1", "B7")] } "A1" "B7"
    (by decide) (by decide) (by decide) (by decide) (by decide) (by decide)).trans
    (by decide)

/-- The C3 invariant for one stage: the key set of the ID map and the
membership of the migrated list coincide. -/
def mapMigratedCoincide (m : List (String × String)) (migrated : List String) : Prop :=
  ∀ x, x ∈ m.map Prod.fst ↔ x ∈ migrated

theorem dictSet_keys_iff (m : List (String × String)) (k v x : String) :
    x ∈ (dictSet m k v).map Prod.fst ↔ (x ∈ m.map Prod.fst ∨ x = k) := by
  by_cases hin : m.any (fun p => p.1 = k)
  · simp only [dictSet, if_pos hin]
    have hkeys : (m.map (fun p => if p.1 = k then (k, v) else p)).map Prod.fst
        = m.map Prod.fst := by
      rw [List.map_map]
      apply List.map_congr_left
      intro p hp
      by_cases hpk : p.1 = k <;> simp [hpk, Function.comp]
    rw [hkeys]
    constructor
    · exact Or.inl
    · rintro (hx | rfl)
      · exact hx
      · simp only [List.any_eq_true, decide_eq_true_eq] at hin
        obtain ⟨p, hp, hpk⟩ := hin
        exact List.mem_map.mpr ⟨p, hp, hpk⟩
  · simp only [dictSet, if_neg hin, List.map_append, List.mem_append]
    simp

theorem coincide_extend (m : List (String × String)) (migrated : List String)
    (k v : String) (h : mapMigratedCoincide m migrated) :
    mapMigratedCoincide (dictSet m k v) (migrated ++ [k]) := by
  intro x
  rw [dictSet_keys_iff, List.mem_append, h x]
  simp

theorem ctStep_coincide (existing : List ExistingCT) (create : String → Option String)
    (publish : String → Bool) (st : MigrationState) (oldId : String)
    (h : mapMigratedCoincide st.content_type_map st.migrated_content_types) :
    mapMigratedCoincide (ctStep existing create publish st oldId).content_type_map
      (ctStep existing create publish st oldId).migrated_content_types := by
  by_cases h1 : oldId ∈ st.migrated_content_types
  · simp only [ctStep, if_pos h1]
    simpa [MigrationState.bumpCT] using h
  · by_cases h2 : existing.any (fun ct => ct.apiId = some oldId)
    · simp only [ctStep, if_neg h1, if_pos h2]
      rcases hf : existing.find? (fun ct => ct.apiId = some oldId) with _ | ct
      · exfalso
        simp only [List.any_eq_true] at h2
        obtain ⟨c2, hc2, hc2p⟩ := h2
        have := List.find?_eq_none.mp hf c2 hc2
        exact this hc2p
      · rw [hf]
        simp only [MigrationState.bumpCT]
        exact coincide_extend _ _ _ _ h
    · simp only [ctStep, if_neg h1, if_neg h2]
      rcases hc : create oldId with _ | newId
      · simpa [MigrationState.bumpCT] using h
      · simp only [MigrationState.bumpCT]
        exact coincide_extend _ _ _ _ h

theorem assetStep_coincide (st : MigrationState) (oldId : String) (oc : AssetOutcome)
    (h : mapMigratedCoincide st.asset_map st.migrated_assets) :
    mapMigratedCoincide (assetStep st oldId oc).asset_map
      (assetStep st oldId oc).migrated_assets := by
  rcases oc with newId | _ | _
  · simp only [assetStep, MigrationState.bumpAssets]
    exact coincide_extend _ _ _ _ h
  · simpa [assetStep, MigrationState.bumpAssets] using h
  · simpa [assetStep, MigrationState.bumpAssets] using h

theorem entryStep_coincide (create : String → Option String) (publish : String → Bool)
    (st : MigrationState) (oldId ctOldId : String)
    (h : mapMigratedCoincide st.entry_map st.migrated_entries) :
    mapMigratedCoincide (entryStep create publish st oldId ctOldId).entry_map
      (entryStep create publish st oldId ctOldId).migrated_entries := by
  by_cases h1 : oldId ∈ st.migrated_entries
  · simp only [entryStep, if_pos h1]
    simpa [MigrationState.bumpEntries] using h
  · simp only [entryStep, if_neg h1]
    rcases hf : strDictFind st.content_type_map ctOldId with _ | newCt
    · simpa [MigrationState.bumpEntries] using h
    · by_cases hne : newCt = ""
      · simp only [if_pos hne]
        simpa [MigrationState.bumpEntries] using h
      · simp only [if_neg hne]
        rcases hc : create oldId with _ | newId
        · simpa [MigrationState.bumpEntries] using h
        · simp only [MigrationState.bumpEntries]
          exact coincide_extend _ _ _ _ h

theorem prepopulateCTMap_subset : ∀ (existing : List ExistingCT) (st : MigrationState),
    (∀ x ∈ st.migrated_content_types, x ∈ st.content_type_map.map Prod.fst) →
    (∀ x ∈ (prepopulateCTMap existing st).migrated_content_types,
      x ∈ (prepopulateCTMap existing st).content_type_map.map Prod.fst) := by
  intro existing
  induction existing with
  | nil => intro st hP; simpa [prepopulateCTMap] using hP
  | cons ct rest ih =>
    intro st hP
    have hcons : prepopulateCTMap (ct :: rest) st
        = prepopulateCTMap rest (prepopulateCTMap [ct] st) := by
      simp [prepopulateCTMap]
    rw [hcons]
    apply ih
    rcases ct with ⟨apiId, ctId⟩
    rcases apiId with _ | a2
    · simpa [prepopulateCTMap] using hP
    · rcases ctId with _ | c2
      · simpa [prepopulateCTMap] using hP
      · by_cases hcond : a2 ≠ "" ∧ c2 ≠ ""
        · simp only [prepopulateCTMap, List.foldl_cons, List.foldl_nil]
          simp only [if_pos hcond]
          intro x hx
          exact (dictSet_keys_iff _ _ _ _).mpr (Or.inl (hP x hx))
        · simp only [prepopulateCTMap, List.foldl_cons, List.foldl_nil]
          simp only [if_neg hcond]
          exact hP

theorem ctStep_subset (existing : List ExistingCT) (create : String → Option String)
    (publish : String → Bool) (st : MigrationState) (oldId : String)
    (hP : ∀ x ∈ st.migrated_content_types, x ∈ st.content_type_map.map Prod.fst) :
    ∀ x ∈ (ctStep existing create publish st oldId).migrated_content_types,
      x ∈ (ctStep existing create publish st oldId).content_type_map.map Prod.fst := by
  by_cases h1 : oldId ∈ st.migrated_content_types
  · simp only [ctStep, if_pos h1]
    simpa [MigrationState.bumpCT] using hP
  · by_cases h2 : existing.any (fun ct => ct.apiId = some oldId)
    · simp only [ctStep, if_neg h1, if_pos h2]
      rcases hf : existing.find? (fun ct => ct.apiId = some oldId) with _ | ct
      · exfalso
        simp only [List.any_eq_true] at h2
        obtain ⟨c2, hc2, hc2p⟩ := h2
        exact (List.find?_eq_none.mp hf c2 hc2) hc2p
      · rw [hf]
        simp only [MigrationState.bumpCT]
        intro x hx
        simp only [List.mem_append, List.mem_singleton] at hx
        rcases hx with hx | rfl
        · exact (dictSet_keys_iff _ _ _ _).mpr (Or.inl (hP x hx))
        · exact dictSet_key_mem _ _ _
    · simp only [ctStep, if_neg h1, if_neg h2]
      rcases hc : create oldId with _ | newId
      · simpa [MigrationState.bumpCT] using hP
      · simp only [MigrationState.bumpCT]
        intro x hx
        simp only [List.mem_append, List.mem_singleton] at hx
        rcases hx with hx | rfl
        · exact (dictSet_keys_iff _ _ _ _).mpr (Or.inl (hP x hx))
        · exact dictSet_key_mem _ _ _

theorem ctFold_subset (existing : List ExistingCT) (create : String → Option String)
    (publish : String → Bool) : ∀ (sel : List String) (st : MigrationState),
    (∀ x ∈ st.migrated_content_types, x ∈ st.content_type_map.map Prod.fst) →
    (∀ x ∈ (sel.foldl (ctStep existing create publish) st).migrated_content_types,
      x ∈ (sel.foldl (ctStep existing create publish) st).content_type_map.map Prod.fst) := by
  intro sel
  induction sel with
  | nil => intro st hP; simpa using hP
  | cons oldId rest ih =>
    intro st hP
    simp only [List.foldl_cons]
    exact ih _ (ctStep_subset existing create publish st oldId hP)

theorem migrateCT_subset (existing : List ExistingCT) (create : String → Option String)
    (publish : String → Bool) (st : MigrationState) (ctData : List String)
    (hP : ∀ x ∈ st.migrated_content_types, x ∈ st.content_type_map.map Prod.fst) :
    ∀ x ∈ (migrate_content_types_model existing create publish st ctData).migrated_content_types,
      x ∈ (migrate_content_types_model existing create publish st ctData).content_type_map.map
        Prod.fst := by
  simp only [migrate_content_types_model]
  apply ctFold_subset
  simpa using prepopulateCTMap_subset existing st hP

/-- Claim C3 (amended): every per-item stage operation preserves the
map/migrated-set coincidence for its stage (content types, assets,
entries), and the full content-type stage preserves the inclusion of the
migrated set in the map's key set; but the content-type stage's initial
adoption of pre-existing destination content types inserts map entries
without migrated-set entries, so after that stage the content-type map may
strictly contain the migrated set (see the counterexample) — the exact
two-way coincidence claimed holds for assets and entries and for every
loop step, not for the content-type stage as a whole. -/
theorem claim_C3 (existing : List ExistingCT) (create : String → Option String)
    (publish : String → Bool) (st : MigrationState) (oldId : String)
    (stA : MigrationState) (aId : String) (oc : AssetOutcome)
    (createE : String → Option String) (publishE : String → Bool)
    (stE : MigrationState) (eId ctOldId : String)
    (st2 : MigrationState) (ctData : List String) :
    (mapMigratedCoincide st.content_type_map st.migrated_content_types →
      mapMigratedCoincide (ctStep existing create publish st oldId).content_type_map
        (ctStep existing create publish st oldId).migrated_content_types)
  ∧ (mapMigratedCoincide stA.asset_map stA.migrated_assets →
      mapMigratedCoincide (assetStep stA aId oc).asset_map
        (assetStep stA aId oc).migrated_assets)
  ∧ (mapMigratedCoincide stE.entry_map stE.migrated_entries →
      mapMigratedCoincide (entryStep createE publishE stE eId ctOldId).entry_map
        (entryStep createE publishE stE eId ctOldId).migrated_entries)
  ∧ ((∀ x ∈ st2.migrated_content_types, x ∈ st2.content_type_map.map Prod.fst) →
      ∀ x ∈ (migrate_content_types_model existing create publish st2 ctData).migrated_content_types,
        x ∈ (migrate_content_types_model existing create publish st2
          ctData).content_type_map.map Prod.fst) :=
  ⟨ctStep_coincide existing create publish st oldId,
   assetStep_coincide stA aId oc,
   entryStep_coincide createE publishE stE eId ctOldId,
   migrateCT_subset existing create publish st2 ctData⟩

/-- Witness for C3 at concrete inputs: starting from coinciding (empty)
map and migrated set, one created content type, one migrated asset and one
created entry keep the coincidence, and the content-type stage keeps the
migrated set inside the map keys. -/
theorem claim_C3_witness :
    mapMigratedCoincide
      (ctStep [] (fun _ => some "N1") (fun _ => true) {} "c1").content_type_map
      (ctStep [] (fun _ => some "N1") (fun _ => true) {} "c1").migrated_content_types
  ∧ mapMigratedCoincide
      (assetStep {} "a1" (.migrated "N2")).asset_map
      (assetStep {} "a1" (.migrated "N2")).migrated_assets
  ∧ mapMigratedCoincide
      (entryStep (fun _ => some "N3") (fun _ => true)
        { content_type_map := [("ct", "X")] } "e1" "ct").entry_map
      (entryStep (fun _ => some "N3") (fun _ => true)
        { content_type_map := [("ct", "X")] } "e1" "ct").migrated_entries
  ∧ (∀ x ∈ (migrate_content_types_model [{ apiId := some "ct1", ctId := some "X1" }]
        (fun _ => some "N1") (fun _ => true)
        { selected_content_types := ["c2"] } ["c2"]).migrated_content_types,
      x ∈ (migrate_content_types_model [{ apiId := some "ct1", ctId := some "X1" }]
        (fun _ => some "N1") (fun _ => true)
        { selected_content_types := ["c2"] } ["c2"]).content_type_map.map Prod.fst) := by
  have h := claim_C3 [] (fun _ => some "N1") (fun _ => true) {} "c1"
    {} "a1" (.migrated "N2") (fun _ => some "N3") (fun _ => true)
    { content_type_map := [("ct", "X")] } "e1" "ct"
    { selected_content_types := ["c2"] } ["c2"]
  have h4 := claim_C3 [{ apiId := some "ct1", ctId := some "X1" }] (fun _ => some "N1")
    (fun _ => true) {} "c1" {} "a1" (.migrated "N2") (fun _ => some "N3") (fun _ => true)
    { content_type_map := [("ct", "X")] } "e1" "ct"
    { selected_content_types := ["c2"] } ["c2"]
  exact ⟨h.1 (fun x => by simp), h.2.1 (fun x => by simp),
    h.2.2.1 (fun x => by simp), h4.2.2.2 (fun x hx => by simp at hx)⟩

/-- Counterexample to C3 as stated: with one pre-existing destination
content type (apiId "ct1") and nothing selected, `migrate_content_types`
adopts "ct1" into `content_type_map` before the loop without adding it to
`migrated_content_types`, so after the stage completes the map's key set
strictly contains the migrated set — the claimed coincidence fails. -/
theorem claim_C3_counterexample :
    ¬ mapMigratedCoincide
        (migrate_content_types_model [{ apiId := some "ct1", ctId := some "X1" }]
          (fun _ => none) (fun _ => false) {} []).content_type_map
        (migrate_content_types_model [{ apiId := some "ct1", ctId := some "X1" }]
          (fun _ => none) (fun _ => false) {} []).migrated_content_types := by
  intro hco
  have h1 := (hco "ct1").mp (by decide)
  exact absurd h1 (by decide)
